import Mathlib

/-!
Verification of the solitude EVM source-level debugger core
(solitude/debugger/evm_trace.py, evm_debug_core.py, oi_debugger.py)
against its natural-language specification.

The Python code is shallowly embedded: strings are Lean `String`s
manipulated through character lists, Python exceptions are modelled with
`Except PyErr`, Python `list[i]` indexing (including negative indices) is
`pyGet`, and dictionaries are association lists where the most recent
write is found first.
-/

namespace Solitude

/-- Python exception kinds raised by the embedded code. -/
inductive PyErr where
  | keyError
  | indexError
  | typeError
  | valueError
  | unboundLocal
  | attributeError
deriving DecidableEq, Repr

/-- Python list indexing `l[i]`: non-negative indices from the front,
negative indices from the back; out of range is an `IndexError` (here
`Option.none`). -/
def pyGet {α : Type} (l : List α) (i : Int) : Option α :=
  if i < 0 then
    let j : Int := (l.length : Int) + i
    if 0 ≤ j then l[j.toNat]? else none
  else l[i.toNat]?

/-- Python `str.split(c)` for a one-character separator, on character
lists: accumulates the current field and starts a new one at each
separator.  Like Python, it always returns at least one field. -/
def splitCharGo (c : Char) (acc : List Char) : List Char → List (List Char)
  | [] => [acc.reverse]
  | x :: xs => if x = c then acc.reverse :: splitCharGo c [] xs else splitCharGo c (x :: acc) xs

/-- Python `s.split(c)` for a one-character separator. -/
def pySplit (s : String) (c : Char) : List String :=
  (splitCharGo c [] s.data).map String.mk

/-- Decimal digit value of a character, if it is a digit. -/
def digitVal (c : Char) : Option Nat :=
  if '0' ≤ c ∧ c ≤ '9' then some (c.toNat - '0'.toNat) else none

/-- Parse a non-empty all-digit character list as a natural number. -/
def parseNatDigits : List Char → Option Nat
  | [] => none
  | cs => cs.foldl (fun acc c => match acc, digitVal c with
      | some n, some d => some (10 * n + d)
      | _, _ => none) (some 0)

/-- Python `int(s)` restricted to an optional leading minus sign followed
by decimal digits; `none` where Python raises `ValueError`. -/
def pyIntOpt (s : String) : Option Int :=
  match s.data with
  | '-' :: rest => (parseNatDigits rest).map (fun n => -(n : Int))
  | cs => (parseNatDigits cs).map (fun n => (n : Int))

/-- ASCII lower-casing of one character (Python `str.lower` on the ASCII
opcode mnemonics used by the debugger). -/
def lowerChar (c : Char) : Char :=
  if 'A' ≤ c ∧ c ≤ 'Z' then Char.ofNat (c.toNat + 32) else c

/-- Python `s.lower()` for ASCII strings. -/
def pyLower (s : String) : String := String.mk (s.data.map lowerChar)

/-- Hexadecimal digit value of a character, if it is a hex digit. -/
def hexDigitVal (c : Char) : Option Nat :=
  if '0' ≤ c ∧ c ≤ '9' then some (c.toNat - '0'.toNat)
  else if 'a' ≤ c ∧ c ≤ 'f' then some (10 + c.toNat - 'a'.toNat)
  else if 'A' ≤ c ∧ c ≤ 'F' then some (10 + c.toNat - 'A'.toNat)
  else none

/-- Parse a non-empty hex-digit character list as a natural number. -/
def parseHexDigits : List Char → Option Nat
  | [] => none
  | cs => cs.foldl (fun acc c => match acc, hexDigitVal c with
      | some n, some d => some (16 * n + d)
      | _, _ => none) (some 0)

/-- Python `int(s, 16)`: optional `0x`/`0X` prefix then hex digits;
`none` where Python raises `ValueError`.  (Sign handling is omitted: the
debugger only parses unsigned stack words.) -/
def pyIntHexOpt (s : String) : Option Nat :=
  match s.data with
  | '0' :: 'x' :: rest => parseHexDigits rest
  | '0' :: 'X' :: rest => parseHexDigits rest
  | cs => parseHexDigits cs

/-- Python string slice `s[a:b]` with clamping semantics for
non-negative bounds (the embedded code only slices with non-negative
bounds). -/
def pySlice (s : String) (a b : Int) : String :=
  let lo : Nat := if a < 0 then max 0 ((s.data.length : Int) + a) |>.toNat else a.toNat
  let hi : Nat := if b < 0 then max 0 ((s.data.length : Int) + b) |>.toNat else b.toNat
  String.mk ((s.data.drop lo).take (hi - lo))

/-- Python string slice `s[a:]`. -/
def pySliceFrom (s : String) (a : Int) : String :=
  let lo : Nat := if a < 0 then max 0 ((s.data.length : Int) + a) |>.toNat else a.toNat
  String.mk (s.data.drop lo)

/-- Dictionary write `d[k] = v` on an association list searched
front-to-back: the newest binding is prepended and shadows older ones. -/
def dictSet {κ α : Type} [BEq κ] (d : List (κ × α)) (k : κ) (v : α) : List (κ × α) :=
  (k, v) :: d.filter (fun p => ¬ (p.1 == k))

/-- Dictionary lookup `d[k]` on an association list (newest binding
first). -/
def dictFind {κ α : Type} [BEq κ] (d : List (κ × α)) (k : κ) : Option α :=
  (d.find? (fun p => p.1 == k)).map (·.2)

/-! ## FrameDecoder: address → instruction number (evm_trace.py 194-209)

`FrameDecoder._map_address_to_instruction_number` walks the bytecode
byte-by-byte; every instruction has length 1 except the push opcodes
`0x60..0x7f` which have length `2..33`, and each byte of an instruction is
assigned the instruction's ordinal. -/

/-- Length in bytes of the instruction with opcode byte `instr`
(`instr_length` in the Python walk): `1`, plus `instr - 0x5f` payload
bytes for push opcodes `0x60..0x7f`. -/
def instrLength (instr : Nat) : Nat :=
  if 0x60 ≤ instr ∧ instr ≤ 0x7f then 1 + (instr - 0x5f) else 1

/-- The walk of `FrameDecoder._map_address_to_instruction_number`,
starting at instruction ordinal `k`: emit `instr_length` copies of `k`
and continue after the instruction's payload.  The recursion is driven
by a fuel argument; since every instruction consumes at least one byte,
`bytecode.length` fuel always suffices and the zero-fuel case on a
non-empty list is unreachable from `map_address_to_instruction_number`. -/
def mapAddrGo (k : Nat) : Nat → List Nat → List Nat
  | _, [] => []
  | 0, _ :: _ => []
  | fuel + 1, b :: rest =>
    List.replicate (instrLength b) k ++ mapAddrGo (k + 1) fuel (rest.drop (instrLength b - 1))

/-- `FrameDecoder._map_address_to_instruction_number(bytecode)`. -/
def map_address_to_instruction_number (bytecode : List Nat) : List Nat :=
  mapAddrGo 0 bytecode.length bytecode

/-- `Boundary bc a n`: in the bytecode `bc`, the walk of
`_map_address_to_instruction_number` reaches byte address `a` as the
start of instruction number `n`. -/
inductive Boundary (bc : List Nat) : Nat → Nat → Prop where
  | base : Boundary bc 0 0
  | next : ∀ a n, Boundary bc a n → a < bc.length →
      Boundary bc (a + instrLength (bc.getD a 0)) (n + 1)

/-! ## FrameDecoder: source-map decompression (evm_trace.py 166-192)

`FrameDecoder._decode_source_map` splits the compressed map on `;` into
records and each record on `:` into up to four fields; an omitted or
empty field inherits the component of the previously resolved tuple,
threaded left to right starting from `(0, 0, 0, '-')`. -/

/-- One integer field of a source-map record
(`int(mv[k]) if (len(mv) > k and len(mv[k])) else last[k]`): an absent
or empty field inherits `inherit`; a non-empty field goes through
`int()`, which raises `ValueError` on a malformed field. -/
def resolveIntField (f : Option String) (inherit : Int) : Except PyErr Int :=
  match f with
  | some s =>
    if s.length ≠ 0 then
      match pyIntOpt s with
      | some n => .ok n
      | none => .error .valueError
    else .ok inherit
  | none => .ok inherit

/-- Resolve one `;`-separated record of the compressed source map against
the previously resolved tuple `last` (the loop body of
`FrameDecoder._decode_source_map`); the three `int()` calls are
evaluated left to right and the first malformed non-empty field aborts
with `ValueError`. -/
def resolveRecord (last : Int × Int × Int × String) (m : String) :
    Except PyErr (Int × Int × Int × String) :=
  let mv := pySplit m ':'
  match resolveIntField mv[0]? last.1 with
  | .error e => .error e
  | .ok st =>
    match resolveIntField mv[1]? last.2.1 with
    | .error e => .error e
    | .ok le =>
      match resolveIntField mv[2]? last.2.2.1 with
      | .error e => .error e
      | .ok fi =>
        let ju := match mv[3]? with
          | some f => if f.length ≠ 0 then f else last.2.2.2
          | none => last.2.2.2
        .ok (st, le, fi, ju)

/-- The record loop of `FrameDecoder._decode_source_map`, threading the
last fully resolved tuple forward; a `ValueError` raised by a record
aborts the whole decompression. -/
def decodeSourceMapGo (last : Int × Int × Int × String) :
    List String → Except PyErr (List (Int × Int × Int × String))
  | [] => .ok []
  | m :: ms =>
    match resolveRecord last m with
    | .error e => .error e
    | .ok r =>
      match decodeSourceMapGo r ms with
      | .error e => .error e
      | .ok rest => .ok (r :: rest)

/-- `FrameDecoder._decode_source_map(srcmap)`. -/
def decode_source_map (srcmap : String) :
    Except PyErr (List (Int × Int × Int × String)) :=
  decodeSourceMapGo (0, 0, 0, "-") (pySplit srcmap ';')

/-! ## SourcePosToLine (evm_trace.py 212-239)

`SourcePosToLine` precomputes the offsets of the newline characters of a
source text; `line_of(index)` computes the line index with
`bisect.bisect_right` and the line start as
`self._splits[line_index - 1] + 1`, falling back to `0` on `IndexError`.
Note that for `line_index == 0` the Python index `-1` addresses the
*last* newline offset (negative indexing), not an `IndexError`. -/

/-- Offsets of the newline characters of a source text (the
`self._splits` loop of `SourcePosToLine.__init__`). -/
def newlinePositions (s : String) : List Nat :=
  (List.range s.data.length).filter (fun i => s.data.getD i ' ' == '\n')

/-- Python `bisect.bisect_right(a, x)` for a sorted list: the number of
elements `≤ x`. -/
def bisect_right (a : List Nat) (x : Int) : Nat :=
  a.countP (fun (s : Nat) => decide ((s : Int) ≤ x))

/-- The per-source state of `SourcePosToLine`. -/
structure SourcePosToLine where
  source : String
  lines : List String
  splits : List Nat
deriving DecidableEq

/-- `SourcePosToLine.__init__(source)` (a `None` source yields the empty
sentinel). -/
def SourcePosToLine.ofSource (source : Option String) : SourcePosToLine :=
  match source with
  | none => ⟨"", [""], []⟩
  | some s => ⟨s, pySplit s '\n', newlinePositions s⟩

/-- `SourcePosToLine.line_of(index)`: bisect the newline offsets, then
read `splits[line_index - 1] + 1` with Python indexing (`0` on
`IndexError`). -/
def SourcePosToLine.line_of (self : SourcePosToLine) (index : Int) : Nat × Nat :=
  let line_index := bisect_right self.splits index
  let line_start :=
    match pyGet self.splits ((line_index : Int) - 1) with
    | some s => s + 1
    | none => 0
  (line_index, line_start)

/-! ## AddressToContract._search_contract (evm_trace.py 313-320)

Scans the registered contracts' creation bytecodes; a candidate replaces
the current best exactly when its bytecode is strictly longer than the
best length so far *and* is a byte prefix of the deployment input.  The
best length starts at `0`, so a zero-length bytecode can never be
selected. -/

/-- The candidate loop of `AddressToContract._search_contract`:
`(match_length, match_id)` is the running best. -/
def searchContractGo (contract_bytecode : List Nat) :
    List (String × String × List Nat) → Nat → Option (String × String) →
      Option (String × String)
  | [], _, match_id => match_id
  | (unitname, contractname, bytecode) :: rest, match_length, match_id =>
    if match_length < bytecode.length ∧ bytecode.isPrefixOf contract_bytecode then
      searchContractGo contract_bytecode rest bytecode.length (some (unitname, contractname))
    else
      searchContractGo contract_bytecode rest match_length match_id

/-- `AddressToContract._search_contract(contract_bin, contract_bytecode)`. -/
def search_contract (contract_bin : List (String × String × List Nat))
    (contract_bytecode : List Nat) : Option (String × String) :=
  searchContractGo contract_bytecode contract_bin 0 none

/-- A registered candidate beats the running best length `ml` (the
selection condition of the loop). -/
def Beats (input : List Nat) (ml : Nat) (cand : String × String × List Nat) : Prop :=
  ml < cand.2.2.length ∧ cand.2.2.isPrefixOf input = true

instance (input : List Nat) (ml : Nat) (cand : String × String × List Nat) :
    Decidable (Beats input ml cand) := by
  unfold Beats
  infer_instance

/-! ## Trace data model (evm_trace.py 16-28) and CallStack (91-123)

`TraceStep` and friends are the named tuples of `evm_trace.py`.
`CallStack.add` classifies one step against the previous step into a
push/pop/none call-stack event, maintaining a list of external levels
each holding internal-call elements. -/

/-- The `SourceMapping` named tuple. -/
structure SourceMapping where
  unitname : Option String
  source : String
  lines : List String
  line_index : Nat
  line_start : Nat
  line_pos : Int
deriving DecidableEq

/-- The `TraceStep` named tuple. -/
structure TraceStep where
  index : Nat
  depth : Int
  contractname : String
  pc : Nat
  op : String
  stack : List String
  memory : List String
  storage : List (String × String)
  gas : Nat
  error : Option String
  start : Int
  length : Int
  fileno : Int
  jumptype : String
  code : SourceMapping
deriving DecidableEq

/-- The `CallStackElement` named tuple. -/
structure CallStackElement where
  prev : TraceStep
  step : TraceStep
deriving DecidableEq

/-- The `CallStackEvent` named tuple. -/
structure CallStackEvent where
  event : Option String
  data : Option CallStackElement
deriving DecidableEq

/-- The `CallStack` state: external levels of internal-call elements,
plus the previously seen step. -/
structure CallStack where
  stack : List (List CallStackElement)
  prev_step : Option TraceStep
deriving DecidableEq

/-- `CallStack.__init__`: one empty external level, no previous step. -/
def CallStack.init : CallStack := ⟨[[]], none⟩

/-- `CallStack.add(step)`: compare the step's opcode with the previous
step's opcode and emit the call-stack event, updating the level stack.
`self._stack[-1]` on an empty level list is an `IndexError`. -/
def CallStack.add (self : CallStack) (step : TraceStep) :
    Except PyErr (CallStack × CallStackEvent) :=
  match self.prev_step with
  | none =>
    .ok (⟨self.stack, some step⟩, ⟨none, none⟩)
  | some prev =>
    let prev_op := pyLower prev.op
    let op := pyLower step.op
    if op = "jumpdest" then
      if prev_op = "jump" then
        match self.stack.getLast? with
        | none => .error .indexError
        | some top =>
          match top.getLast? with
          | some lastel =>
            if step.pc = lastel.prev.pc + 1 then
              .ok (⟨self.stack.dropLast ++ [top.dropLast], some step⟩, ⟨some "pop", none⟩)
            else if prev.jumptype = "i" then
              let d : CallStackElement := ⟨prev, step⟩
              .ok (⟨self.stack.dropLast ++ [top ++ [d]], some step⟩, ⟨some "push", some d⟩)
            else .ok (⟨self.stack, some step⟩, ⟨none, none⟩)
          | none =>
            if prev.jumptype = "i" then
              let d : CallStackElement := ⟨prev, step⟩
              .ok (⟨self.stack.dropLast ++ [top ++ [d]], some step⟩, ⟨some "push", some d⟩)
            else .ok (⟨self.stack, some step⟩, ⟨none, none⟩)
      else .ok (⟨self.stack, some step⟩, ⟨none, none⟩)
    else if step.pc = 0 ∧ prev_op = "call" then
      let d : CallStackElement := ⟨prev, step⟩
      .ok (⟨self.stack ++ [[d]], some step⟩, ⟨some "push", some d⟩)
    else if prev_op = "stop" then
      if self.stack.isEmpty then .error .indexError
      else .ok (⟨self.stack.dropLast, some step⟩, ⟨some "pop", none⟩)
    else .ok (⟨self.stack, some step⟩, ⟨none, none⟩)

/-- A minimal concrete trace step for tests: only `pc`, `op` and
`jumptype` matter to the call-stack tracker. -/
def mkStep (pc : Nat) (op : String) (jumptype : String) : TraceStep :=
  { index := 0, depth := 0, contractname := "c", pc := pc, op := op,
    stack := [], memory := [], storage := [], gas := 0, error := none,
    start := 0, length := 0, fileno := 0, jumptype := jumptype,
    code := { unitname := none, source := "", lines := [""], line_index := 0,
              line_start := 0, line_pos := 0 } }

/-! ## SourceMapper (evm_trace.py 242-277) and contract artifacts -/

/-- The compiled-contract artifact fields consumed by the debugger
(`bin` and `bin-runtime` already byte-decoded from hex, as
`binascii.unhexlify` produces). -/
structure Contract where
  bin : List Nat
  binRuntime : List Nat
  srcmapRuntime : String
  solitudeSource : String
  solitudeSourceList : List String
  solitudeSourcePath : String
deriving DecidableEq

/-- The `SourceMapper` state: per-unit position mappers, the
`(unitname, file-index) → unitname` table, and the null mapper. -/
structure SourceMapper where
  unitname_to_posmapper : List (String × SourcePosToLine)
  unitname_fi_to_unitname : List ((String × Int) × String)
  nullposmapper : SourcePosToLine
deriving DecidableEq

/-- `SourceMapper.__init__(compiled)`: collect each unit's source and the
file-index table from every compiled contract. -/
def SourceMapper.ofCompiled (compiled : List ((String × String) × Contract)) :
    SourceMapper :=
  let res := compiled.foldl
    (fun (acc : List (String × SourcePosToLine) × List ((String × Int) × String)) entry =>
      let unitname := entry.1.1
      let contract := entry.2
      let pm := dictSet acc.1 unitname (SourcePosToLine.ofSource (some contract.solitudeSource))
      let fimap := contract.solitudeSourceList.enum.foldl
        (fun m p => dictSet m (unitname, (p.1 : Int)) p.2) acc.2
      (pm, fimap))
    ([], [])
  ⟨res.1, res.2, SourcePosToLine.ofSource none⟩

/-- The tail of `SourceMapper.get_source`: resolve line index, line start
and column for a start offset against a position mapper.  A negative
column is clamped to the length of the current line
(`posmapper.lines[line_index]`, always in range for mappers built by
`SourcePosToLine.ofSource`). -/
def SourceMapper.build_mapping (unitname_fi : Option String)
    (posmapper : SourcePosToLine) (st : Int) : SourceMapping :=
  let lp := posmapper.line_of st
  let line_pos : Int := st - (lp.2 : Int)
  let line_pos := if line_pos < 0 then ((posmapper.lines.getD lp.1 "").length : Int) else line_pos
  ⟨unitname_fi, posmapper.source, posmapper.lines, lp.1, lp.2, line_pos⟩

/-- `SourceMapper.get_source(unitname, st, le, fi)`: look up the unit of
the file index, then its position mapper; a `KeyError` in either lookup
degrades to the null mapper with a `None` unit name. -/
def SourceMapper.get_source (self : SourceMapper) (unitname : String)
    (st _le fi : Int) : SourceMapping :=
  match dictFind self.unitname_fi_to_unitname (unitname, fi) with
  | none => SourceMapper.build_mapping none self.nullposmapper st
  | some unitname_fi =>
    match dictFind self.unitname_to_posmapper unitname_fi with
    | none => SourceMapper.build_mapping none self.nullposmapper st
    | some posmapper => SourceMapper.build_mapping (some unitname_fi) posmapper st

/-! ## FrameDecoder objects and the trace iterator (evm_trace.py 31-164) -/

/-- The `FrameDecoder` state: runtime bytecode, its
address-to-instruction-number table and its decompressed source map. -/
structure FrameDecoder where
  bytecode : List Nat
  address_to_instruction_number : List Nat
  instruction_number_to_source : List (Int × Int × Int × String)
deriving DecidableEq

/-- `FrameDecoder.__init__(contract)`: builds the address table and
decompresses the source map; a `ValueError` raised by
`_decode_source_map` escapes the constructor. -/
def FrameDecoder.ofContract (contract : Contract) : Except PyErr FrameDecoder :=
  match decode_source_map contract.srcmapRuntime with
  | .error e => .error e
  | .ok source =>
    .ok ⟨contract.binRuntime,
      map_address_to_instruction_number contract.binRuntime,
      source⟩

/-- `FrameDecoder.get_mapping(address)`: two plain list indexings; an
address or instruction number outside the tables raises `IndexError` —
there is no fallback here. -/
def FrameDecoder.get_mapping (self : FrameDecoder) (address : Nat) :
    Except PyErr (Int × Int × Int × String) :=
  match self.address_to_instruction_number[address]? with
  | none => .error .indexError
  | some instruction_number =>
    match self.instruction_number_to_source[instruction_number]? with
    | none => .error .indexError
    | some mapping => .ok mapping

/-- A frame decoder or the null decoder (`FrameDecoderDummy`). -/
inductive Decoder where
  | frame (fd : FrameDecoder)
  | dummy
deriving DecidableEq

/-- Dispatch of `get_mapping`: `FrameDecoderDummy.get_mapping` always
returns the sentinel `(0, 0, 0, '-')`. -/
def Decoder.get_mapping : Decoder → Nat → Except PyErr (Int × Int × Int × String)
  | .frame fd, address => fd.get_mapping address
  | .dummy, _ => .ok (0, 0, 0, "-")

/-- The `TraceStackItem` named tuple. -/
structure TraceStackItem where
  unitname : String
  contractname : String
  decoder : Decoder
deriving DecidableEq

/-- One `structLogs` record of the raw trace. -/
structure LogEntry where
  depth : Int
  pc : Nat
  op : String
  error : Option String
  gas : Nat
  memory : List String
  stack : List String
  storage : List (String × String)
deriving DecidableEq

/-- The loop-carried state of `EvmTrace.trace_iter`: the decoder stack,
the previous depth, the call-stack tracker, and the Python local
bindings of `call_unitname`/`call_contractname` (unbound before the
first successful assignment). -/
structure TraceIterState where
  tracestack : List TraceStackItem
  prev_depth : Int
  callstack : CallStack
  locals_call_id : Option (String × String)
deriving DecidableEq

/-- The state at the top of `trace_iter` (`prev_depth = -1`). -/
def TraceIterState.init : TraceIterState := ⟨[], -1, CallStack.init, none⟩

/-- One iteration of the `trace_iter` loop body (evm_trace.py 48-88) for
log entry `i`: on entering a call, resolve the called address to a
contract identity and push a decoder (the `except KeyError` branch reads
`call_unitname`, which is an `UnboundLocalError` if no previous
iteration bound it, and a stored `None` identity fails tuple unpacking
with a `TypeError`; a `ValueError` raised while the `FrameDecoder`
constructor decompresses the source map is not a `KeyError` and
escapes); on leaving a call, drop the top decoder; then map
the program counter through the top decoder, build the step and feed it
to the call-stack tracker. -/
def trace_iter_body (transaction_to : String) (logs : List LogEntry)
    (a2c : List (String × Option (String × String)))
    (compiled : List ((String × String) × Contract))
    (srcmapper : SourceMapper)
    (st : TraceIterState) (i : Nat) (log : LogEntry) :
    Except PyErr (TraceIterState × TraceStep × CallStackEvent) := do
  let enter ←
    if log.depth = st.prev_depth + 1 then do
      let address ←
        if i = 0 then pure transaction_to
        else
          match logs[i - 1]? with
          | none => throw .indexError
          | some prevlog =>
            match pyGet prevlog.stack (-2) with
            | none => throw .indexError
            | some w => pure ("0x" ++ pySliceFrom w 24)
      match dictFind a2c address with
      | none =>
        match st.locals_call_id with
        | none => throw .unboundLocal
        | some (u, c) =>
          pure (st.tracestack ++ [⟨u, c, Decoder.dummy⟩], st.locals_call_id)
      | some none => throw .typeError
      | some (some (u, c)) =>
        match dictFind compiled (u, c) with
        | none => pure (st.tracestack ++ [⟨u, c, Decoder.dummy⟩], some (u, c))
        | some contract =>
          match FrameDecoder.ofContract contract with
          | .error e => throw e
          | .ok fd =>
            pure (st.tracestack ++ [⟨u, c, Decoder.frame fd⟩], some (u, c))
    else if log.depth = st.prev_depth - 1 then
      match st.tracestack with
      | [] => throw .indexError
      | ts => pure (ts.dropLast, st.locals_call_id)
    else pure (st.tracestack, st.locals_call_id)
  match enter.1.getLast? with
  | none => throw .indexError
  | some frame => do
    let mapping ← frame.decoder.get_mapping log.pc
    let source := srcmapper.get_source frame.unitname mapping.1 mapping.2.1 mapping.2.2.1
    let step : TraceStep :=
      ⟨i, log.depth, frame.contractname, log.pc, log.op, log.stack, log.memory, log.storage,
        log.gas, log.error, mapping.1, mapping.2.1, mapping.2.2.1, mapping.2.2.2, source⟩
    match st.callstack.add step with
    | .error e => throw e
    | .ok (cs, ev) =>
      pure (⟨enter.1, log.depth, cs, enter.2⟩, step, ev)

/-- The `trace_iter` loop over all log entries: the steps yielded before
the loop raises, and the exception if one escapes. -/
def trace_iter_go (transaction_to : String) (logs : List LogEntry)
    (a2c : List (String × Option (String × String)))
    (compiled : List ((String × String) × Contract))
    (srcmapper : SourceMapper) :
    Nat → TraceIterState → List LogEntry →
      List (TraceStep × CallStackEvent) × Option PyErr
  | _, _, [] => ([], none)
  | i, st, log :: rest =>
    match trace_iter_body transaction_to logs a2c compiled srcmapper st i log with
    | .error e => ([], some e)
    | .ok (st', step, ev) =>
      let tail := trace_iter_go transaction_to logs a2c compiled srcmapper (i + 1) st' rest
      ((step, ev) :: tail.1, tail.2)

/-- `EvmTrace.trace_iter(txhash)` over a fetched transaction (`to`
address) and raw log: the yielded `(step, event)` sequence and the
escaping exception, if any. -/
def trace_iter (transaction_to : String) (logs : List LogEntry)
    (a2c : List (String × Option (String × String)))
    (compiled : List ((String × String) × Contract))
    (srcmapper : SourceMapper) :
    List (TraceStep × CallStackEvent) × Option PyErr :=
  trace_iter_go transaction_to logs a2c compiled srcmapper 0 TraceIterState.init logs

/-- A one-contract compilation for testing the trace decoder: runtime
bytecode `STOP` (one instruction) and a one-record source map. -/
def cexContract : Contract :=
  ⟨[], [0x00], "0:1:0", "abc", ["u"], "u"⟩

/-- The frame decoder `FrameDecoder.__init__` builds for `cexContract`:
the one-instruction address table and the single resolved tuple of the
source map `"0:1:0"`. -/
def cexDecoder : FrameDecoder :=
  ⟨[0x00], [0], [(0, 1, 0, "-")]⟩

/-! ## EvmDebugCore (evm_debug_core.py)

The debug core wraps the trace sequence in a `2W+1` window, maintains
the frame stack, and recovers values by AST-correlation heuristics.  AST
nodes are modelled as Python-like JSON values (`PyObj`). -/

/-- Python-like JSON value for AST nodes. -/
inductive PyObj where
  | none
  | bool (b : Bool)
  | int (n : Int)
  | str (s : String)
  | list (xs : List PyObj)
  | dict (xs : List (String × PyObj))

/-- Python structural equality `==` on `PyObj` (the embedded code only
compares like-typed values). -/
def PyObj.beq : PyObj → PyObj → Bool
  | .none, .none => true
  | .bool a, .bool b => a == b
  | .int a, .int b => a == b
  | .str a, .str b => a == b
  | .list [], .list [] => true
  | .list (x :: xs), .list (y :: ys) => x.beq y && (PyObj.list xs).beq (.list ys)
  | .dict [], .dict [] => true
  | .dict ((k, x) :: xs), .dict ((l, y) :: ys) => k == l && x.beq y && (PyObj.dict xs).beq (.dict ys)
  | _, _ => false

/-- Python `d[k]` on an AST node: `KeyError` when the key is missing,
`TypeError` when the subscripted value is not a dictionary. -/
def pyobjGet (d : PyObj) (k : String) : Except PyErr PyObj :=
  match d with
  | .dict xs =>
    match dictFind xs k with
    | some v => .ok v
    | Option.none => .error .keyError
  | _ => .error .typeError

/-- Python `d.get(k, default)` on an AST node (`AttributeError` on a
non-dictionary). -/
def pyobjGetDefault (d : PyObj) (k : String) (default : PyObj) : Except PyErr PyObj :=
  match d with
  | .dict xs => .ok ((dictFind xs k).getD default)
  | _ => .error .attributeError

/-- Python `d[i]` on an AST list node. -/
def pyobjIndex (d : PyObj) (i : Int) : Except PyErr PyObj :=
  match d with
  | .list xs =>
    match pyGet xs i with
    | some v => .ok v
    | Option.none => .error .indexError
  | _ => .error .typeError

/-- Dictionary write keyed by a Python value (`==` comparison). -/
def dictSetP {α : Type} (d : List (PyObj × α)) (k : PyObj) (v : α) : List (PyObj × α) :=
  (k, v) :: d.filter (fun p => ¬ (p.1.beq k))

/-- Dictionary lookup keyed by a Python value. -/
def dictFindP {α : Type} (d : List (PyObj × α)) (k : PyObj) : Option α :=
  (d.find? (fun p => p.1.beq k)).map (·.2)

/-- Python `d.update(e)` (entries of `e` win) for value-keyed
dictionaries. -/
def dictUpdateP {α : Type} (d : List (PyObj × α)) (e : List (PyObj × α)) :
    List (PyObj × α) :=
  e ++ d.filter (fun p => (dictFindP e p.1).isNone)

/-- Run an embedded computation, turning a `KeyError` into a default
result (the `except KeyError: pass` pattern). -/
def catchKeyError {α : Type} (e : Except PyErr α) (default : α) : Except PyErr α :=
  match e with
  | .error .keyError => .ok default
  | x => x

/-- The `Value` debug-information object (evm_debug_core.py 22-74). -/
structure Value where
  type : PyObj
  name : PyObj
  value : Int
  kind : String
  origin : Option String

/-- The `Function` call-information object (evm_debug_core.py 77-101). -/
structure Function where
  name : PyObj
  parameters : List Value

/-- The `Frame` call-stack entry (evm_debug_core.py 104-134). -/
structure Frame where
  prev : Option TraceStep
  cur : Option TraceStep
  locals : List (PyObj × Value)
  return_values : List Value
  function : Option Function

/-- The `Step` object (evm_debug_core.py 137-165): trace step, call
stack event, AST nodes keyed by node type, recovered values. -/
structure Step where
  step : Option TraceStep
  event : CallStackEvent
  ast : List (PyObj × PyObj)
  values : List (PyObj × Value)

/-- `Step.valid`. -/
def Step.valid (s : Step) : Bool := s.step.isSome

/-- The state of `EvmDebugCore`: window parameters, the window itself,
the frame stack, the remaining trace iterator, the AST maps
(`source path → src string → nodes`) and the source mapper. -/
structure EvmDebugCore where
  windowsize : Nat
  window_offset : Int
  window : List Step
  frames : List Frame
  iter : List (TraceStep × CallStackEvent)
  astmaps : List (String × List (String × List PyObj))
  srcmapper : SourceMapper

/-- `EvmDebugCore.INVALID_STEP`. -/
def EvmDebugCore.INVALID_STEP : Step := ⟨none, ⟨none, none⟩, [], []⟩

/-- The `out[node["nodeType"]] = node` loop of
`EvmDebugCore._get_ast_nodes`; in the source the nodes are always
dictionaries and the surrounding `try` ends the loop on a `KeyError`,
keeping the entries accumulated so far. -/
def buildNodeTypeDict : List PyObj → List (PyObj × PyObj) → List (PyObj × PyObj)
  | [], out => out
  | node :: rest, out =>
    match pyobjGet node "nodeType" with
    | .ok nt => buildNodeTypeDict rest (dictSetP out nt node)
    | .error _ => out

/-- `EvmDebugCore._get_ast_nodes(step)`: look up the AST nodes whose
`src` equals this step's `start:length:fileno` in the unit's AST map; a
`KeyError` anywhere yields the empty dictionary. -/
def EvmDebugCore.get_ast_nodes
    (astmaps : List (String × List (String × List PyObj))) (step : TraceStep) :
    List (PyObj × PyObj) :=
  let ast_src := toString step.start ++ ":" ++ toString step.length ++ ":" ++
    toString step.fileno
  match step.code.unitname with
  | none => []
  | some un =>
    match dictFind astmaps un with
    | none => []
    | some m =>
      match dictFind m ast_src with
      | none => []
      | some nodes => buildNodeTypeDict nodes []

/-- `EvmDebugCore._get_window_rel(i)`: guarded by
`windowsize + i < len(window)` and then a plain Python list indexing, so
a negative `windowsize + i` indexes from the window's far end; only an
index below `-len(window)` is an `IndexError`. -/
def EvmDebugCore.window_rel (self : EvmDebugCore) (i : Int) : Except PyErr Step :=
  if (self.windowsize : Int) + i < (self.window.length : Int) then
    match pyGet self.window ((self.windowsize : Int) + i) with
    | some s => .ok s
    | none => .error .indexError
  else .ok EvmDebugCore.INVALID_STEP

/-- `EvmDebugCore.get_step(offset)`. -/
def EvmDebugCore.get_step (self : EvmDebugCore) (offset : Int) : Except PyErr Step :=
  self.window_rel offset

/-- `EvmDebugCore._move_window(n)`: `n` times, drop the oldest window
slot and append the next decoded step (or the invalid sentinel when the
iterator is exhausted); the window always has `2·windowsize + 1` slots,
so the deletion of slot 0 cannot fail. -/
def EvmDebugCore.move_window : Nat → EvmDebugCore → EvmDebugCore
  | 0, st => st
  | n + 1, st =>
    let st1 :=
      match st.iter with
      | [] =>
        { st with window := st.window.drop 1 ++ [EvmDebugCore.INVALID_STEP],
                  window_offset := st.window_offset + 1 }
      | (ts, ev) :: rest =>
        let s : Step := ⟨some ts, ev, EvmDebugCore.get_ast_nodes st.astmaps ts, []⟩
        { st with window := st.window.drop 1 ++ [s], iter := rest,
                  window_offset := st.window_offset + 1 }
    EvmDebugCore.move_window n st1

/-- `EvmDebugCore.__init__`: pre-fill the window `windowsize + 1` steps
ahead and seed the synthetic root frame spanning the first step. -/
def EvmDebugCore.init (windowsize : Nat) (iter : List (TraceStep × CallStackEvent))
    (astmaps : List (String × List (String × List PyObj))) (srcmapper : SourceMapper) :
    Except PyErr EvmDebugCore := do
  let st0 : EvmDebugCore :=
    ⟨windowsize, 0, List.replicate (1 + 2 * windowsize) EvmDebugCore.INVALID_STEP,
      [], iter, astmaps, srcmapper⟩
  let st1 := EvmDebugCore.move_window (windowsize + 1) st0
  let s ← st1.window_rel 0
  pure { st1 with frames := st1.frames ++ [⟨s.step, s.step, [], [], none⟩] }

/-- `EvmDebugCore._get_frame(i)` (`self._frames[-1 - i]`). -/
def EvmDebugCore.get_frame (self : EvmDebugCore) (i : Int) : Except PyErr Frame :=
  match pyGet self.frames (-1 - i) with
  | some f => .ok f
  | none => .error .indexError

/-- `EvmDebugCore.get_frames()` (`self._frames[::-1]`). -/
def EvmDebugCore.get_frames (self : EvmDebugCore) : List Frame :=
  self.frames.reverse

/-- `EvmDebugCore.get_callstack_depth()`. -/
def EvmDebugCore.get_callstack_depth (self : EvmDebugCore) : Nat :=
  self.frames.length

/-- `EvmDebugCore._extract_variable(step, astnode, stackpos, origin)`:
type and name from the AST node (an anonymous node is named by its
source slice and becomes a temporary), value from the operand stack; a
missing stack slot returns no value (`except IndexError`), a malformed
`src` or stack word is a `ValueError`. -/
def EvmDebugCore.extract_variable (srcmapper : SourceMapper) (step : TraceStep)
    (astnode : PyObj) (stackpos : Nat) (origin : Option String) :
    Except PyErr (List Value) := do
  let td ← pyobjGetDefault astnode "typeDescriptions" (.dict [])
  let vartype ← pyobjGetDefault td "typeString" (.str "T?")
  let nm ← pyobjGetDefault astnode "name" .none
  let varname_kind ←
    match nm with
    | .none => do
      let src ← pyobjGet astnode "src"
      match src with
      | .str srcstr =>
        match pySplit srcstr ':' with
        | [f1, f2, f3] =>
          match pyIntOpt f1, pyIntOpt f2, pyIntOpt f3 with
          | some stv, some lev, some fiv =>
            let source := srcmapper.get_source step.contractname stv lev fiv
            pure ((PyObj.str (pySlice source.source stv (stv + lev)), "temporary"))
          | _, _, _ => throw .valueError
        | _ => throw .valueError
      | _ => throw .attributeError
    | other => pure ((other, "variable"))
  match pyGet step.stack (-1 - (stackpos : Int)) with
  | none => pure []
  | some w =>
    match pyIntHexOpt w with
    | none => throw .valueError
    | some v =>
      pure [⟨vartype, varname_kind.1, (v : Int), varname_kind.2, origin⟩]

/-- `EvmDebugCore._search_ExpressionStatement`: the left-hand side of an
assignment expression, as a variable write (`KeyError` yields nothing). -/
def EvmDebugCore.search_ExpressionStatement (srcmapper : SourceMapper)
    (ts : TraceStep) (stmt : PyObj) : Except PyErr (List Value) :=
  catchKeyError (do
    let expr ← pyobjGet stmt "expression"
    let nt ← pyobjGet expr "nodeType"
    if nt.beq (.str "Assignment") then do
      let node ← pyobjGet expr "leftHandSide"
      EvmDebugCore.extract_variable srcmapper ts node 0 (some "ExpressionStatement")
    else pure []) []

/-- `EvmDebugCore._search_VariableDeclarationStatement`. -/
def EvmDebugCore.search_VariableDeclarationStatement (srcmapper : SourceMapper)
    (ts : TraceStep) (stmt : PyObj) : Except PyErr (List Value) :=
  catchKeyError (do
    let decls ← pyobjGet stmt "declarations"
    let d0 ← pyobjIndex decls 0
    let nt ← pyobjGet d0 "nodeType"
    if nt.beq (.str "VariableDeclaration") then
      EvmDebugCore.extract_variable srcmapper ts d0 0 (some "VariableDeclarationStatement")
    else pure []) []

/-- The parameter-extraction loop shared by `_search_FunctionDefinition`
(`sub = 1`, stack offset `num - index - 1`) and `_search_FunctionReturn`
(`sub = 0`, stack offset `num - index`). -/
def extractParamsGo (srcmapper : SourceMapper) (ts : TraceStep)
    (origin : Option String) (num sub : Nat) : Nat → List PyObj →
      Except PyErr (List Value)
  | _, [] => pure []
  | idx, node :: rest => do
    let vs ← EvmDebugCore.extract_variable srcmapper ts node (num - idx - sub) origin
    let tail ← extractParamsGo srcmapper ts origin num sub (idx + 1) rest
    pure (vs ++ tail)

/-- Turn a `KeyError` into `None` (the `except KeyError: return None`
pattern of the function searches). -/
def catchKeyErrorNone (e : Except PyErr (Option Function)) :
    Except PyErr (Option Function) :=
  match e with
  | .error .keyError => .ok none
  | x => x

/-- `EvmDebugCore._search_FunctionDefinition`: candidate parameter
values at function entry, when the stack is deep enough. -/
def EvmDebugCore.search_FunctionDefinition (srcmapper : SourceMapper)
    (ts : TraceStep) (stmt : PyObj) : Except PyErr (Option Function) :=
  catchKeyErrorNone (do
    let name ← pyobjGet stmt "name"
    let ps ← pyobjGet stmt "parameters"
    let params ← pyobjGet ps "parameters"
    match params with
    | .list plist =>
      if ts.stack.length < plist.length + 1 then pure none
      else do
        let values ← extractParamsGo srcmapper ts (some "FunctionDefinition")
          plist.length 1 0 plist
        pure (some ⟨name, values⟩)
    | _ => throw .typeError)

/-- `EvmDebugCore._search_FunctionReturn`: candidate return values
before a returning jump; all recovered values are re-marked as returns. -/
def EvmDebugCore.search_FunctionReturn (srcmapper : SourceMapper)
    (ts : TraceStep) (stmt : PyObj) : Except PyErr (Option Function) :=
  catchKeyErrorNone (do
    let name ← pyobjGet stmt "name"
    let ps ← pyobjGet stmt "returnParameters"
    let params ← pyobjGet ps "parameters"
    match params with
    | .list plist =>
      if ts.stack.length < plist.length + 2 then pure none
      else do
        let values ← extractParamsGo srcmapper ts (some "FunctionReturn")
          plist.length 0 0 plist
        pure (some ⟨name, values.map (fun v => { v with kind := "return" })⟩)
    | _ => throw .typeError)

/-- File the recovered values into the current step (temporaries), the
active frame's locals (variables) or its return list (returns) — the
`for var in values` loop at the end of `EvmDebugCore.step`. -/
def fileValues (s : Step) (f : Frame) : List Value → Step × Frame
  | [] => (s, f)
  | var :: rest =>
    let acc :=
      if var.kind = "temporary" then ({ s with values := dictSetP s.values var.name var }, f)
      else if var.kind = "variable" then (s, { f with locals := dictSetP f.locals var.name var })
      else if var.kind = "return" then (s, { f with return_values := f.return_values ++ [var] })
      else (s, f)
    fileValues acc.1 acc.2 rest

/-- `EvmDebugCore.step()`: advance the window one slot, apply the new
step's call-stack event to the frame stack (`_pop_frame` on an empty
stack is an `IndexError`), then — unless the frame stack is empty, which
the `except IndexError` turns into an early return — run the
AST-correlation heuristics in order and file the recovered values. -/
def EvmDebugCore.step (st0 : EvmDebugCore) : Except PyErr EvmDebugCore := do
  let st := EvmDebugCore.move_window 1 st0
  let s ← st.window_rel 0
  if ¬ s.valid then pure st
  else do
    let st ←
      if s.event.event = some "push" then
        match s.event.data with
        | some d => pure { st with frames := st.frames ++ [⟨some d.prev, some d.step, [], [], none⟩] }
        | none => throw .attributeError
      else if s.event.event = some "pop" then
        match st.frames with
        | [] => throw .indexError
        | fs => pure { st with frames := fs.dropLast }
      else pure st
    match pyGet st.frames (-1) with
    | none => pure st
    | some f =>
      match s.step with
      | none => pure st
      | some ts => do
        let v1 ←
          match dictFindP s.ast (.str "ExpressionStatement"), ts.op == "SWAP1" with
          | some stmt, true => EvmDebugCore.search_ExpressionStatement st.srcmapper ts stmt
          | _, _ => pure []
        let v2 ←
          match v1.isEmpty, dictFindP s.ast (.str "VariableDeclarationStatement"),
              ts.op == "SWAP1" || ts.op == "SWAP2" || ts.op == "SWAP3" with
          | true, some stmt, true =>
            EvmDebugCore.search_VariableDeclarationStatement st.srcmapper ts stmt
          | _, _, _ => pure []
        let v3 ←
          match (v1 ++ v2).isEmpty, dictFindP s.ast (.str "FunctionDefinition"),
              ts.op == "JUMP" with
          | true, some stmt, true => do
            let fo ← EvmDebugCore.search_FunctionReturn st.srcmapper ts stmt
            match fo, f.function with
            | some fn, some ffn =>
              if ffn.name.beq fn.name then pure fn.parameters else pure []
            | _, _ => pure []
          | _, _, _ => pure []
        let v4f ←
          match (v1 ++ v2 ++ v3).isEmpty, dictFindP s.ast (.str "FunctionDefinition"),
              ts.op == "JUMPDEST" with
          | true, some stmt, true => do
            let fo ← EvmDebugCore.search_FunctionDefinition st.srcmapper ts stmt
            match fo, f.function with
            | some fn, none => pure ((fn.parameters, { f with function := some fn }))
            | _, _ => pure (([], f))
          | _, _, _ => pure (([], f))
        let v5 ←
          match (v1 ++ v2 ++ v3 ++ v4f.1).isEmpty, ts.op == "CALLVALUE" with
          | true, true => do
            let snext ← st.window_rel 1
            if snext.valid then
              match snext.step with
              | some nts =>
                match pyGet nts.stack (-1) with
                | none => throw .indexError
                | some w =>
                  match pyIntHexOpt w with
                  | none => throw .valueError
                  | some v =>
                    pure [⟨.str "uint256", .str "msg.value", (v : Int), "variable", none⟩]
              | none => pure []
            else pure []
          | _, _ => pure []
        let filed := fileValues s v4f.2 (v1 ++ v2 ++ v3 ++ v4f.1 ++ v5)
        pure { st with window := st.window.set st.windowsize filed.1,
                       frames := st.frames.dropLast ++ [filed.2] }

/-- `EvmDebugCore.get_values()`: the active frame's locals merged with
the current step's values (the step's entries win). -/
def EvmDebugCore.get_values (self : EvmDebugCore) :
    Except PyErr (List (PyObj × Value)) := do
  let s ← self.window_rel 0
  match pyGet self.frames (-1) with
  | none => throw .indexError
  | some f => pure (dictUpdateP f.locals s.values)

/-- A valid pop-event step for window tests. -/
def popStep : Step := ⟨some (mkStep 7 "ADD" "-"), ⟨some "pop", none⟩, [], []⟩

/-- A small concrete window for the C9 witness. -/
def w9core : EvmDebugCore :=
  ⟨1, 0, [⟨some (mkStep 1 "ADD" "-"), ⟨none, none⟩, [], []⟩,
          ⟨some (mkStep 2 "MUL" "-"), ⟨none, none⟩, [], []⟩,
          ⟨some (mkStep 3 "SUB" "-"), ⟨none, none⟩, [], []⟩], [], [], [],
    SourceMapper.ofCompiled []⟩

/-! ## InteractiveDebuggerOI (oi_debugger.py)

The command layer over `EvmDebugCore`: breakpoints, the selected frame,
and the `_continue` step-driving loop.  Stop conditions are
`ObjectInterfaceException`s, modelled as an explicit outcome value; the
driving loop is given fuel (one loop iteration per unit) and reports
`none` when the fuel ends before a stop condition fires. -/

/-- `ObjectInterfaceException(name, args)`. -/
structure ObjectInterfaceException where
  name : String
  args : List String
deriving DecidableEq

/-- The state of `InteractiveDebuggerOI`. -/
structure InteractiveDebuggerOI where
  dbg : EvmDebugCore
  breakpoints : List String
  current_frame : Int
  code_lines : Nat × Nat

/-- `InteractiveDebuggerOI._get_function_name(s)`. -/
def InteractiveDebuggerOI.get_function_name (s : Step) : Except PyErr (Option PyObj) :=
  match dictFindP s.ast (.str "FunctionDefinition") with
  | some fd => (pyobjGet fd "name").map some
  | none => pure none

/-- The `for i in range(1, 50)` loop of
`InteractiveDebuggerOI._function_def_look_ahead`, with countdown fuel
`50 - i`. -/
def function_def_look_ahead_go (st : InteractiveDebuggerOI) (name : PyObj) :
    Nat → Int → Bool → Except PyErr Bool
  | 0, _, _ => pure false
  | fuel + 1, i, push_found => do
    let s ← st.dbg.get_step i
    let push_found := push_found || (s.event.event == some "push")
    if ¬ s.valid then pure false
    else do
      let next_name ← InteractiveDebuggerOI.get_function_name s
      let names_match :=
        match next_name with
        | some nm => nm.beq name
        | none => false
      if names_match then
        match s.step with
        | some ts =>
          if ts.op = "JUMPDEST" ∧ push_found = false then pure true
          else function_def_look_ahead_go st name fuel (i + 1) push_found
        | none => pure false
      else pure false

/-- `InteractiveDebuggerOI._function_def_look_ahead(name)`. -/
def InteractiveDebuggerOI.function_def_look_ahead (st : InteractiveDebuggerOI)
    (name : PyObj) : Except PyErr Bool :=
  function_def_look_ahead_go st name 49 1 false

/-- `InteractiveDebuggerOI._same_source(s1, s2)`. -/
def InteractiveDebuggerOI.same_source (s1 s2 : TraceStep) : Bool :=
  if s1.fileno == -1 && s2.fileno == -1 then true
  else (s1.start == s2.start) && (s1.length == s2.length) && (s1.fileno == s2.fileno)

/-- Python `s.startswith(pre)`. -/
def pyStartsWith (s pre : String) : Bool :=
  pre.data.isPrefixOf s.data

/-- `os.path.split(p)[-1]`. -/
def lastPathComponent (p : String) : String :=
  ((pySplit p '/').getLast?).getD ""

/-- `InteractiveDebuggerOI._check_break(depth)`: raise `revert` on the
revert opcode; then on a fresh `JUMPDEST` at positive internal depth, if
the current source range carries a `FunctionDefinition` whose name (or
`Contract.name` form) is a registered breakpoint — unless the look-ahead
says the real function entry is still coming, in which case the whole
check returns early; finally a `file:line` breakpoint on a changed
source line.  `some e` is a raised `ObjectInterfaceException`, `none` a
plain return. -/
def InteractiveDebuggerOI.check_break (st : InteractiveDebuggerOI) (depth : Int) :
    Except PyErr (Option ObjectInterfaceException) := do
  let s ← st.dbg.get_step 0
  let prev ← st.dbg.get_step (-1)
  match s.step with
  | none => throw .attributeError
  | some ts =>
    if ts.op = "REVERT" then pure (some ⟨"revert", []⟩)
    else do
      let cond1 := ts.op == "JUMPDEST" && prev.valid &&
        (match prev.step with
         | some pts => pts.jumptype != "o"
         | none => false) && decide (depth > 0)
      let r1 ← (do
        if cond1 then
          match dictFindP s.ast (.str "FunctionDefinition") with
          | some ast => do
            let fname ← pyobjGet ast "name"
            let la ← st.function_def_look_ahead fname
            if la then pure (some none)
            else
              match fname with
              | .str nm =>
                let names := [nm, ts.contractname ++ "." ++ nm]
                if names.any (fun n => st.breakpoints.contains n) then
                  pure (some (some (⟨"breakpoint", []⟩ : ObjectInterfaceException)))
                else pure none
              | _ => throw .typeError
          | none => pure none
        else pure none :
          Except PyErr (Option (Option ObjectInterfaceException)))
      match r1 with
      | some r => pure r
      | none =>
        match ts.code.unitname with
        | some un =>
          let changed : Bool :=
            !prev.valid ||
            (match prev.step with
             | some pts =>
               !((some un == pts.code.unitname) && (ts.code.line_index == pts.code.line_index))
             | none => true)
          if changed then
            let file_bp_name := lastPathComponent un ++ ":" ++ toString (1 + ts.code.line_index)
            if st.breakpoints.contains file_bp_name then
              pure (some ⟨"breakpoint", []⟩)
            else pure none
          else pure none
        | none => pure none

/-- The `depth` update at the top of the `_continue` loop body. -/
def depthAfterEvent (depth : Int) (s : Step) : Int :=
  if s.event.event = some "push" then depth + 1
  else if s.event.event = some "pop" then depth - 1
  else depth

/-- The `while True` loop of `InteractiveDebuggerOI._continue`, with
fuel: each unit of fuel is one loop iteration; `none` means the fuel ran
out before a stop condition fired, `some (st, e)` is the state at the
raise together with the raised stop condition. -/
def InteractiveDebuggerOI.continue_go (function : String) (prev_depth : Nat)
    (prev : Step) :
    Nat → Int → InteractiveDebuggerOI →
      Except PyErr (Option (InteractiveDebuggerOI × ObjectInterfaceException))
  | 0, _, _ => pure none
  | fuel + 1, depth0, st0 => do
    let dbg ← EvmDebugCore.step st0.dbg
    let st : InteractiveDebuggerOI := { st0 with dbg := dbg }
    let s ← st.dbg.get_step 0
    let depth := depthAfterEvent depth0 s
    if ¬ s.valid then pure (some (st, ⟨"terminate", []⟩))
    else do
      let cb ← st.check_break depth
      match cb with
      | some e => pure (some (st, e))
      | none =>
        if function = "stepi" then pure (some (st, ⟨"step", []⟩))
        else if function = "step" then
          if (¬ prev.valid) ∧ s.valid then pure (some (st, ⟨"step", []⟩))
          else
            match s.step, prev.step with
            | some ts, some pts =>
              if ¬ InteractiveDebuggerOI.same_source ts pts then
                pure (some (st, ⟨"step", []⟩))
              else if s.values.length ≠ 0 then pure (some (st, ⟨"step", []⟩))
              else InteractiveDebuggerOI.continue_go function prev_depth prev fuel depth st
            | _, _ => throw .attributeError
        else if function = "next" then
          let depth2 := (st.dbg.get_callstack_depth : Int)
          if depth2 ≤ (prev_depth : Int) then
            if (¬ prev.valid) ∧ s.valid then pure (some (st, ⟨"step", []⟩))
            else
              match s.step, prev.step with
              | some ts, some pts =>
                if ¬ InteractiveDebuggerOI.same_source ts pts then
                  pure (some (st, ⟨"step", []⟩))
                else if s.values.length ≠ 0 then pure (some (st, ⟨"step", []⟩))
                else InteractiveDebuggerOI.continue_go function prev_depth prev fuel depth2 st
              | _, _ => throw .attributeError
          else InteractiveDebuggerOI.continue_go function prev_depth prev fuel depth2 st
        else if function = "finish" then do
          let depth2 := (st.dbg.get_callstack_depth : Int)
          let next_s ← st.dbg.get_step 1
          if ¬ next_s.valid then
            pure (some (st, ⟨"step", ["warning", "program_terminated"]⟩))
          else if depth2 < (prev_depth : Int) then
            pure (some (st, ⟨"step", ["warning", "unexpected_return"]⟩))
          else if depth2 = (prev_depth : Int) ∧ next_s.event.event = some "pop" then
            pure (some (st, ⟨"step", ["return"]⟩))
          else InteractiveDebuggerOI.continue_go function prev_depth prev fuel depth2 st
        else InteractiveDebuggerOI.continue_go function prev_depth prev fuel depth st

/-- `InteractiveDebuggerOI._continue(function)`. -/
def InteractiveDebuggerOI.oi_continue (fuel : Nat) (st : InteractiveDebuggerOI)
    (function : String) :
    Except PyErr (Option (InteractiveDebuggerOI × ObjectInterfaceException)) := do
  let prev_depth := st.dbg.get_callstack_depth
  let prev ← st.dbg.get_step 0
  InteractiveDebuggerOI.continue_go function prev_depth prev fuel 0 st

/-- `InteractiveDebuggerOI.cmd_stepi(args)`. -/
def InteractiveDebuggerOI.cmd_stepi (fuel : Nat) (st : InteractiveDebuggerOI) :
    Except PyErr (Option (InteractiveDebuggerOI × ObjectInterfaceException)) :=
  InteractiveDebuggerOI.oi_continue fuel st "stepi"

/-- A `ColorText` value: text runs with an optional color. -/
structure ColorText where
  parts : List (String × Option String)

/-- `ColorText.append`. -/
def ColorText.append (ct : ColorText) (text : String) (color : Option String) :
    ColorText :=
  ⟨ct.parts ++ [(text, color)]⟩

/-- `str(colortext)`. -/
def ColorText.toText (ct : ColorText) : String :=
  ct.parts.foldl (fun acc p => acc ++ p.1) ""

/-- `s.count("\n")`. -/
def countNewlines (s : String) : Nat := s.data.count '\n'

/-- `"\n".join(s.split("\n")[:n])`. -/
def joinLinesTake (s : String) (n : Nat) : String :=
  match (pySplit s '\n').take n with
  | [] => ""
  | x :: rest => rest.foldl (fun acc p => acc ++ "\n" ++ p) x

/-- Python `s.lstrip()`. -/
def pyLstrip (s : String) : String := String.mk (s.data.dropWhile Char.isWhitespace)

/-- Python `s.rstrip()`. -/
def pyRstrip (s : String) : String :=
  String.mk ((s.data.reverse.dropWhile Char.isWhitespace).reverse)

/-- `InteractiveDebuggerOI.get_source_lines(step, strip, color, before,
after)` (oi_debugger.py 381-428). -/
def InteractiveDebuggerOI.get_source_lines (step : Option TraceStep) (strip : Bool)
    (color : Option String) (before after : Nat) : ColorText :=
  match step with
  | none => ⟨[("<unknown>", none)]⟩
  | some ts =>
    if ts.fileno = -1 then ⟨[("<unknown>", none)]⟩
    else
      let lines_before := ((List.range ts.code.line_index).filter
          (fun (i : Nat) => decide ((ts.code.line_index : Int) - (before : Int) ≤ (i : Int)))).foldl
        (fun acc i => acc ++ ts.code.lines.getD i "" ++ "\n") ""
      let out := ColorText.append ⟨[]⟩ lines_before none
      let source := pySliceFrom ts.code.source (ts.code.line_start : Int)
      let left0 := pySlice source 0 ts.code.line_pos
      let middle := pySlice source ts.code.line_pos (ts.code.line_pos + ts.length)
      let right0 := pySliceFrom source (ts.code.line_pos + ts.length)
      let left := if strip then pyLstrip left0 else left0
      let right := if strip then pyRstrip right0 else right0
      let nlL := countNewlines left
      if after < nlL then ColorText.append out (joinLinesTake left (1 + after)) none
      else
        let out := ColorText.append out left none
        let rem := after - nlL
        let nlM := countNewlines middle
        if rem < nlM then ColorText.append out (joinLinesTake middle (1 + rem)) color
        else
          let out := ColorText.append out middle color
          let rem := rem - nlM
          if right ≠ "" then
            let nlR := countNewlines right
            if rem < nlR then ColorText.append out (joinLinesTake right (1 + rem)) none
            else ColorText.append out right none
          else out

/-- `os.path.abspath(p)` depends on the process working directory, which
is outside the program state; modelled as prefixing a fixed marker to
relative paths. -/
def os_path_abspath (p : String) : String :=
  if pyStartsWith p "/" then p else "<cwd>/" ++ p

/-- The `code` dictionary built by `InteractiveDebuggerOI.format_code`. -/
structure CodeObj where
  path : Option String
  absolute_path : Option String
  line_index : Nat
  line_pos : Int
  line_lenght : Int
  line_start : Nat
  text : String
  colortext : List (String × Option String)

/-- `InteractiveDebuggerOI.format_code(step, before, after)`; `step.code`
on a missing step is an `AttributeError`. -/
def InteractiveDebuggerOI.format_code (st : InteractiveDebuggerOI)
    (step : Option TraceStep) (before after : Option Nat) : Except PyErr CodeObj :=
  match step with
  | none => throw .attributeError
  | some ts =>
    let colortext := InteractiveDebuggerOI.get_source_lines (some ts) false (some "green")
      (before.getD st.code_lines.1) (after.getD st.code_lines.2)
    let absolute_path :=
      match ts.code.unitname with
      | some p => if ¬ pyStartsWith p "source#" then some (os_path_abspath p) else some p
      | none => none
    pure ⟨ts.code.unitname, absolute_path, ts.code.line_index, ts.code.line_pos, ts.length,
      ts.code.line_start, colortext.toText, colortext.parts⟩

/-- `InteractiveDebuggerOI._get_values(iframe, istep)`: index the
reversed frame list (an out-of-range selected frame is an `IndexError`),
then merge the frame's locals with the step's values. -/
def InteractiveDebuggerOI.get_values_oi (st : InteractiveDebuggerOI)
    (iframe istep : Int) : Except PyErr (List (PyObj × Value)) := do
  let frames := st.dbg.get_frames
  match pyGet frames iframe with
  | none => throw .indexError
  | some f => do
    let s ← st.dbg.get_step istep
    pure (dictUpdateP f.locals s.values)

/-- The response of `cmd_print`. -/
structure PrintResponse where
  frame_index : Int
  variable_name : String
  frame_found : Bool
  variable_found : Bool
  variable_ : Option Value

/-- `InteractiveDebuggerOI.cmd_print(args)`: look up the variable in the
*currently selected* frame's values; a frame `IndexError` leaves
`frame_found = False`. -/
def InteractiveDebuggerOI.cmd_print (st : InteractiveDebuggerOI) (args : List String) :
    Except PyErr PrintResponse := do
  match args[0]? with
  | none => throw .indexError
  | some varname =>
    match st.get_values_oi st.current_frame 0 with
    | .error .indexError => pure ⟨st.current_frame, varname, false, false, none⟩
    | .error e => throw e
    | .ok vs =>
      match dictFindP vs (.str varname) with
      | some v => pure ⟨st.current_frame, varname, true, true, some v⟩
      | none => pure ⟨st.current_frame, varname, true, false, none⟩

/-- The response of `cmd_info_locals`. -/
structure InfoLocalsResponse where
  frame_index : Int
  frame_found : Bool
  variables_ : List Value

/-- `InteractiveDebuggerOI.cmd_info_locals(args)`. -/
def InteractiveDebuggerOI.cmd_info_locals (st : InteractiveDebuggerOI) :
    Except PyErr InfoLocalsResponse :=
  match st.get_values_oi st.current_frame 0 with
  | .error .indexError => pure ⟨st.current_frame, false, []⟩
  | .error e => throw e
  | .ok vs => pure ⟨st.current_frame, true, vs.map (·.2)⟩

/-- The response of `cmd_info_args`. -/
structure InfoArgsResponse where
  frame_index : Int
  frame_found : Bool
  function_found : Bool
  function : Option Function

/-- `InteractiveDebuggerOI.cmd_info_args(args)`. -/
def InteractiveDebuggerOI.cmd_info_args (st : InteractiveDebuggerOI) :
    Except PyErr InfoArgsResponse :=
  match pyGet st.dbg.get_frames st.current_frame with
  | none => pure ⟨st.current_frame, false, false, none⟩
  | some f =>
    match f.function with
    | some fn => pure ⟨st.current_frame, true, true, some fn⟩
    | none => pure ⟨st.current_frame, true, false, none⟩

/-- A command outcome: a response object or a raised
`ObjectInterfaceException`. -/
inductive OIOutcome (α : Type) where
  | resp (r : α)
  | exc (e : ObjectInterfaceException)

/-- The response of `cmd_frame`. -/
structure FrameResponse where
  frame_index : Int
  frame_found : Bool
  code : Option CodeObj

/-- `InteractiveDebuggerOI.cmd_frame(args)`: parse the frame index,
*assign it to the selected frame first*, then try to read that frame
(the `IndexError` is caught, leaving `frame_found = False` but the
selection already changed); a malformed integer raises the `_syntax`
exception before any assignment. -/
def InteractiveDebuggerOI.cmd_frame (st : InteractiveDebuggerOI) (args : List String) :
    Except PyErr (InteractiveDebuggerOI × OIOutcome FrameResponse) := do
  match args[0]? with
  | none => throw .indexError
  | some a0 =>
    match pyIntOpt a0 with
    | none => pure (st, .exc ⟨"_syntax", []⟩)
    | some frame_index =>
      let st := { st with current_frame := frame_index }
      match pyGet st.dbg.get_frames st.current_frame with
      | none => pure (st, .resp ⟨frame_index, false, none⟩)
      | some f => do
        let code ← st.format_code f.cur none none
        pure (st, .resp ⟨frame_index, true, some code⟩)

/-- Concrete trace steps and window for the `cmd_stepi` and `cmd_frame`
witnesses. -/
def w8ts0 : TraceStep := mkStep 0 "PUSH1" "-"

def w8ts1 : TraceStep := mkStep 2 "ADD" "-"

def w8ts2 : TraceStep := mkStep 3 "ADD" "-"

def w8S0 : Step := ⟨some w8ts0, ⟨none, none⟩, [], []⟩

def w8S1 : Step := ⟨some w8ts1, ⟨none, none⟩, [], []⟩

def w8S2 : Step := ⟨some w8ts2, ⟨none, none⟩, [], []⟩

def w8frame : Frame := ⟨some w8ts0, some w8ts0, [], [], none⟩

/-- A concrete debugger state: windowsize 1, one frame, one remaining
trace item. -/
def w8st : InteractiveDebuggerOI :=
  ⟨⟨1, 0, [EvmDebugCore.INVALID_STEP, w8S0, w8S1], [w8frame], [(w8ts2, ⟨none, none⟩)], [],
      SourceMapper.ofCompiled []⟩, [], 0, (3, 6)⟩

/-- The core of `w8st` after exactly one `step()`. -/
def w8dbg' : EvmDebugCore :=
  ⟨1, 1, [w8S0, w8S1, w8S2], [w8frame], [], [], SourceMapper.ofCompiled []⟩

/-! ## Theorems -/

theorem instrLength_pos (b : Nat) : 1 ≤ instrLength b := by
  unfold instrLength
  split <;> omega

theorem mapAddrGo_fuel (f1 : Nat) : ∀ (f2 k : Nat) (l : List Nat),
    l.length ≤ f1 → l.length ≤ f2 → mapAddrGo k f1 l = mapAddrGo k f2 l := by
  induction f1 with
  | zero =>
    intro f2 k l h1 h2
    have : l = [] := List.length_eq_zero.mp (by omega)
    subst this
    simp [mapAddrGo]
  | succ f1 ih =>
    intro f2 k l h1 h2
    match l with
    | [] => simp [mapAddrGo]
    | b :: rest =>
      obtain ⟨f2p, rfl⟩ : ∃ m, f2 = m + 1 := by
        cases f2 with
        | zero => simp at h2
        | succ m => exact ⟨m, rfl⟩
      rw [mapAddrGo, mapAddrGo]
      congr 1
      apply ih
      · simp only [List.length_drop]
        simp only [List.length_cons] at h1
        omega
      · simp only [List.length_drop]
        simp only [List.length_cons] at h2
        omega

theorem mapAddrGo_length (fuel : Nat) : ∀ (l : List Nat) (k : Nat), l.length ≤ fuel →
    l.length ≤ (mapAddrGo k fuel l).length := by
  induction fuel with
  | zero =>
    intro l k h
    have : l = [] := List.length_eq_zero.mp (by omega)
    simp [this, mapAddrGo]
  | succ m ih =>
    intro l k h
    match l with
    | [] => simp [mapAddrGo]
    | b :: rest =>
      rw [mapAddrGo]
      have h1 := instrLength_pos b
      have h2 := ih (rest.drop (instrLength b - 1)) (k + 1)
        (by simp only [List.length_drop]; simp at h; omega)
      simp only [List.length_append, List.length_replicate, List.length_cons,
        List.length_drop] at *
      omega

theorem mapAddrGo_drop (bc : List Nat) (a n : Nat) (h : Boundary bc a n) :
    (map_address_to_instruction_number bc).drop a =
      mapAddrGo n (bc.drop a).length (bc.drop a) := by
  induction h with
  | base => simp [map_address_to_instruction_number]
  | next a n _ hlt ih =>
    have hcons : bc.drop a = bc.getD a 0 :: bc.drop (a + 1) := by
      rw [List.getD_eq_getElem _ _ hlt]
      exact List.drop_eq_getElem_cons hlt
    set b := bc.getD a 0 with hb
    have hstep : mapAddrGo n (bc.drop a).length (bc.drop a) =
        List.replicate (instrLength b) n ++
          mapAddrGo (n + 1) (bc.drop (a + 1)).length
            ((bc.drop (a + 1)).drop (instrLength b - 1)) := by
      rw [hcons]
      simp only [List.length_cons]
      rw [mapAddrGo]
    have hdd : (bc.drop (a + 1)).drop (instrLength b - 1) = bc.drop (a + instrLength b) := by
      rw [List.drop_drop]
      congr 1
      have := instrLength_pos b
      omega
    calc (map_address_to_instruction_number bc).drop (a + instrLength b)
        = ((map_address_to_instruction_number bc).drop a).drop (instrLength b) := by
          rw [List.drop_drop]
      _ = (mapAddrGo n (bc.drop a).length (bc.drop a)).drop (instrLength b) := by rw [ih]
      _ = mapAddrGo (n + 1) (bc.drop (a + 1)).length (bc.drop (a + instrLength b)) := by
          rw [hstep, ← hdd]
          have hdl := List.drop_left (List.replicate (instrLength b) n)
            (mapAddrGo (n + 1) (bc.drop (a + 1)).length
              ((bc.drop (a + 1)).drop (instrLength b - 1)))
          simp only [List.length_replicate] at hdl
          exact hdl
      _ = mapAddrGo (n + 1) (bc.drop (a + instrLength b)).length
            (bc.drop (a + instrLength b)) := by
          apply mapAddrGo_fuel
          · simp only [List.length_drop]
            have := instrLength_pos b
            omega
          · exact le_rfl

theorem mapAddrGo_single (fuel : Nat) : ∀ (l : List Nat) (k : Nat), l.length ≤ fuel →
    (∀ b ∈ l, ¬ (0x60 ≤ b ∧ b ≤ 0x7f)) →
    mapAddrGo k fuel l = List.range' k l.length := by
  induction fuel with
  | zero =>
    intro l k hf h
    have : l = [] := List.length_eq_zero.mp (by omega)
    simp [this, mapAddrGo]
  | succ m ih =>
    intro l k hf h
    match l with
    | [] => simp [mapAddrGo]
    | b :: rest =>
      have hb : instrLength b = 1 := by
        unfold instrLength
        rw [if_neg (h b (by simp))]
      rw [mapAddrGo, hb]
      simp only [Nat.sub_self, List.drop_zero, List.replicate_one, List.length_cons,
        List.range'_succ, List.cons_append, List.nil_append]
      rw [ih rest (k + 1) (by simp only [List.length_cons] at hf; omega)
        (fun x hx => h x (by simp [hx]))]

/-- **C1.** The address-to-instruction-number table built by the frame
decoder maps every byte address of the runtime bytecode (the table is at
least as long as the bytecode); for a bytecode of only single-byte
opcodes it is the identity mapping; and at every instruction boundary
holding a push opcode `b ∈ [0x60, 0x7f]` with payload length
`k = b - 0x5f`, the addresses `a .. a+k` all map to the same instruction
number while address `a+k+1`, when still inside the bytecode, maps to the
next instruction number (so payload bytes are never visited as opcodes). -/
theorem map_address_to_instruction_number_spec (bc : List Nat) :
    bc.length ≤ (map_address_to_instruction_number bc).length ∧
    ((∀ b ∈ bc, ¬ (0x60 ≤ b ∧ b ≤ 0x7f)) →
      map_address_to_instruction_number bc = List.range bc.length) ∧
    (∀ a n b, Boundary bc a n → bc[a]? = some b → 0x60 ≤ b → b ≤ 0x7f →
      ((∀ j, j ≤ b - 0x5f →
          (map_address_to_instruction_number bc)[a + j]? = some n) ∧
        (a + (b - 0x5f) + 1 < bc.length →
          (map_address_to_instruction_number bc)[a + (b - 0x5f) + 1]? = some (n + 1)))) := by
  refine ⟨mapAddrGo_length bc.length bc 0 le_rfl, ?_, ?_⟩
  · intro h
    rw [map_address_to_instruction_number, mapAddrGo_single bc.length bc 0 le_rfl h,
      List.range_eq_range']
  · intro a n b hB hget h60 h7f
    have hlt : a < bc.length := by
      by_contra hle
      rw [List.getElem?_eq_none (by omega)] at hget
      exact Option.noConfusion hget
    have hbD : bc.getD a 0 = b := by
      rw [List.getD_eq_getElem?_getD, hget]
      rfl
    have hdropbc : bc.drop a = b :: bc.drop (a + 1) := by
      rw [← hbD, List.getD_eq_getElem _ _ hlt]
      exact List.drop_eq_getElem_cons hlt
    have hlen : instrLength b = 1 + (b - 0x5f) := by
      unfold instrLength
      rw [if_pos ⟨h60, h7f⟩]
    have hdrop := mapAddrGo_drop bc a n hB
    rw [hdropbc] at hdrop
    simp only [List.length_cons] at hdrop
    rw [mapAddrGo, hlen] at hdrop
    have hidx : ∀ j : Nat, (map_address_to_instruction_number bc)[a + j]? =
        ((map_address_to_instruction_number bc).drop a)[j]? := by
      intro j
      rw [List.getElem?_drop]
    constructor
    · intro j hj
      rw [hidx, hdrop, List.getElem?_append_left (by simp; omega), List.getElem?_replicate,
        if_pos (by omega)]
    · intro hin
      rw [show a + (b - 0x5f) + 1 = a + ((b - 0x5f) + 1) by omega, hidx, hdrop,
        List.getElem?_append_right (by simp; omega)]
      simp only [List.length_replicate]
      rw [show b - 0x5f + 1 - (1 + (b - 0x5f)) = 0 from by omega]
      have hrest : (bc.drop (a + 1)).drop (1 + (b - 0x5f) - 1) =
          bc.drop (a + (b - 0x5f) + 1) := by
        rw [List.drop_drop]
        congr 1
        omega
      rw [hrest]
      rw [mapAddrGo_fuel (bc.drop (a + 1)).length (bc.drop (a + (b - 0x5f) + 1)).length
        (n + 1) (bc.drop (a + (b - 0x5f) + 1))
        (by simp only [List.length_drop]; omega) le_rfl]
      have hne : bc.drop (a + (b - 0x5f) + 1) ≠ [] := by
        intro hnil
        have := List.drop_eq_nil_iff.mp hnil
        omega
      obtain ⟨c, cs, hcons⟩ := List.exists_cons_of_ne_nil hne
      rw [hcons]
      simp only [List.length_cons]
      rw [mapAddrGo]
      have hcpos := instrLength_pos c
      rw [List.getElem?_append_left (by simp only [List.length_replicate]; omega)]
      simp only [List.getElem?_replicate]
      rw [if_pos (by omega)]

theorem decodeSourceMapGo_ok_length (ms : List String) :
    ∀ (last : Int × Int × Int × String) (out : List (Int × Int × Int × String)),
      decodeSourceMapGo last ms = .ok out → out.length = ms.length := by
  induction ms with
  | nil =>
    intro last out h
    simp only [decodeSourceMapGo, Except.ok.injEq] at h
    simp [← h]
  | cons m ms ih =>
    intro last out h
    rw [decodeSourceMapGo] at h
    split at h
    · exact Except.noConfusion h
    · split at h
      · exact Except.noConfusion h
      · rename_i rest hrest
        simp only [Except.ok.injEq] at h
        subst h
        simp [ih _ rest hrest]

theorem decodeSourceMapGo_ok_head (last : Int × Int × Int × String) (m : String)
    (ms : List String) (out : List (Int × Int × Int × String))
    (h : decodeSourceMapGo last (m :: ms) = .ok out) :
    ∃ t rest, resolveRecord last m = .ok t ∧ out = t :: rest := by
  rw [decodeSourceMapGo] at h
  split at h
  · exact Except.noConfusion h
  · rename_i t ht
    split at h
    · exact Except.noConfusion h
    · rename_i rest hrest
      simp only [Except.ok.injEq] at h
      exact ⟨t, rest, ht, h.symm⟩

theorem decodeSourceMapGo_ok_rec (ms : List String) :
    ∀ (last : Int × Int × Int × String) (out : List (Int × Int × Int × String))
      (i : Nat) (t : Int × Int × Int × String) (m : String),
      decodeSourceMapGo last ms = .ok out →
      out[i]? = some t → ms[i + 1]? = some m →
      ∃ u, resolveRecord t m = .ok u ∧ out[i + 1]? = some u := by
  induction ms with
  | nil => intro last out i t m h ht hm; simp at hm
  | cons r ms ih =>
    intro last out i t m h ht hm
    rw [decodeSourceMapGo] at h
    split at h
    · exact Except.noConfusion h
    · rename_i r0 hr0
      split at h
      · exact Except.noConfusion h
      · rename_i rest hrest
        simp only [Except.ok.injEq] at h
        subst h
        match i with
        | 0 =>
          simp only [List.getElem?_cons_zero, Option.some.injEq] at ht
          subst ht
          simp only [List.getElem?_cons_succ] at hm
          match ms, hm with
          | m0 :: ms2, hm =>
            simp only [List.getElem?_cons_zero, Option.some.injEq] at hm
            subst hm
            obtain ⟨t1, rest1, ht1, hout⟩ := decodeSourceMapGo_ok_head _ _ _ _ hrest
            exact ⟨t1, ht1, by simp [hout]⟩
        | i + 1 =>
          simp only [List.getElem?_cons_succ] at ht hm ⊢
          exact ih r0 rest i t m hrest ht hm

/-- **C2.** Source-map decompression processes the `;`-separated records
strictly left to right: whenever it returns (no `int()` `ValueError`),
it yields one 4-tuple per record, the first record resolving against the
initial tuple `(0, 0, 0, "-")` and every later record resolving against
(and inheriting omitted or empty fields from) the immediately preceding
resolved tuple; in particular the map `"1:2:0:i;;3::1"` decompresses to
`[(1,2,0,"i"), (1,2,0,"i"), (3,2,1,"i")]`, while a record with a
malformed non-empty integer field raises `ValueError` instead of
producing any tuple list. -/
theorem decode_source_map_spec :
    (∀ (s : String) (out : List (Int × Int × Int × String)),
      decode_source_map s = .ok out → out.length = (pySplit s ';').length) ∧
    (∀ (s : String) (out : List (Int × Int × Int × String)) (m : String),
      decode_source_map s = .ok out → (pySplit s ';')[0]? = some m →
      ∃ t, resolveRecord (0, 0, 0, "-") m = .ok t ∧ out[0]? = some t) ∧
    (∀ (s : String) (out : List (Int × Int × Int × String)) (i : Nat)
      (t : Int × Int × Int × String) (m : String),
      decode_source_map s = .ok out →
      out[i]? = some t → (pySplit s ';')[i + 1]? = some m →
      ∃ u, resolveRecord t m = .ok u ∧ out[i + 1]? = some u) ∧
    decode_source_map "1:2:0:i;;3::1" =
      .ok [(1, 2, 0, "i"), (1, 2, 0, "i"), (3, 2, 1, "i")] ∧
    decode_source_map "x;7:y" = .error .valueError := by
  refine ⟨?_, ?_, ?_, rfl, rfl⟩
  · intro s out h
    rw [decodeSourceMapGo_ok_length _ _ _ h]
  · intro s out m h hm
    rw [decode_source_map] at h
    match hsp : pySplit s ';', hm, h with
    | r :: rs, hm, h =>
      simp only [List.getElem?_cons_zero, Option.some.injEq] at hm
      subst hm
      obtain ⟨t, rest, ht, hout⟩ := decodeSourceMapGo_ok_head _ _ _ _ h
      exact ⟨t, ht, by simp [hout]⟩
  · intro s out i t m h ht hm
    exact decodeSourceMapGo_ok_rec (pySplit s ';') _ out i t m h ht hm

/-- Witness for C2: the length, head and threading clauses evaluated on
the concrete map `"1:2:0:i;;3::1"`, whose decompression succeeds. -/
theorem decode_source_map_spec_witness :
    ([(1, 2, 0, "i"), (1, 2, 0, "i"), (3, 2, 1, "i")] :
        List (Int × Int × Int × String)).length = (pySplit "1:2:0:i;;3::1" ';').length ∧
    (∃ t, resolveRecord (0, 0, 0, "-") "1:2:0:i" = .ok t ∧
      ([(1, 2, 0, "i"), (1, 2, 0, "i"), (3, 2, 1, "i")] :
        List (Int × Int × Int × String))[0]? = some t) ∧
    (∃ u, resolveRecord (1, 2, 0, "i") "" = .ok u ∧
      ([(1, 2, 0, "i"), (1, 2, 0, "i"), (3, 2, 1, "i")] :
        List (Int × Int × Int × String))[1]? = some u) := by
  refine ⟨decode_source_map_spec.1 "1:2:0:i;;3::1" _ rfl,
    decode_source_map_spec.2.1 "1:2:0:i;;3::1" _ "1:2:0:i" rfl rfl,
    decode_source_map_spec.2.2.1 "1:2:0:i;;3::1" _ 0 (1, 2, 0, "i") "" rfl rfl rfl⟩

theorem pyGet_nonneg {α : Type} (l : List α) (i : Int) (h : 0 ≤ i) :
    pyGet l i = l[i.toNat]? := by
  rw [pyGet, if_neg (by omega)]

theorem pyGet_neg_last {α : Type} (l : List α) (h : l ≠ []) :
    pyGet l (-1) = l.getLast? := by
  have hlen : 1 ≤ l.length := List.length_pos.mpr h
  rw [pyGet, if_pos (by omega)]
  simp only [if_pos (show (0 : Int) ≤ (l.length : Int) + (-1) by omega)]
  rw [List.getLast?_eq_getElem?]
  congr 1
  omega

theorem newlinePositions_sorted (s : String) :
    List.Pairwise (· < ·) (newlinePositions s) :=
  (List.pairwise_lt_range s.data.length).filter _

theorem bisect_right_greatest (x : Int) (l : List Nat)
    (hs : List.Pairwise (· < ·) l) (h1 : 1 ≤ bisect_right l x) :
    ∃ s, l[bisect_right l x - 1]? = some s ∧ (s : Int) ≤ x ∧
      ∀ t ∈ l, (t : Int) ≤ x → t ≤ s := by
  induction l with
  | nil => simp [bisect_right] at h1
  | cons a rest ih =>
    rw [List.pairwise_cons] at hs
    by_cases hax : (a : Int) ≤ x
    · rw [bisect_right, List.countP_cons, if_pos (by simpa using hax)] at h1 ⊢
      by_cases hz : rest.countP (fun (s : Nat) => decide ((s : Int) ≤ x)) = 0
      · refine ⟨a, ?_, hax, ?_⟩
        · rw [hz]
          simp
        · intro t ht htx
          rcases List.mem_cons.mp ht with rfl | htr
          · exact le_refl t
          · exact absurd htx (by simpa using List.countP_eq_zero.mp hz t htr)
      · have h1r : 1 ≤ bisect_right rest x := by
          rw [bisect_right]; omega
        obtain ⟨s, hsg, hsx, hmax⟩ := ih hs.2 h1r
        refine ⟨s, ?_, hsx, ?_⟩
        · rw [bisect_right] at hsg
          have hk : rest.countP (fun (s : Nat) => decide ((s : Int) ≤ x)) + 1 - 1 =
              (rest.countP (fun (s : Nat) => decide ((s : Int) ≤ x)) - 1) + 1 := by omega
          rw [hk, List.getElem?_cons_succ]
          exact hsg
        · intro t ht htx
          rcases List.mem_cons.mp ht with rfl | htr
          · have hsmem : s ∈ rest := List.getElem?_mem hsg
            exact le_of_lt (hs.1 s hsmem)
          · exact hmax t htr htx
    · exfalso
      have hz : rest.countP (fun (s : Nat) => decide ((s : Int) ≤ x)) = 0 := by
        rw [List.countP_eq_zero]
        intro t htr
        simp only [decide_eq_true_eq]
        have := hs.1 t htr
        omega
      rw [bisect_right, List.countP_cons, if_neg (by simpa using hax)] at h1
      omega

/-- **C5 counterexample.** On the spec example source `"ab\ncd\nef"`,
`line_of(0)` returns line start `6` (the start of the *last* line, via
Python negative indexing of `splits[-1]`), which is not a line start
`≤ 0`; the claimed result would be `(0, 0)`. -/
theorem line_of_counterexample :
    (SourcePosToLine.ofSource (some "ab\ncd\nef")).line_of 0 = (0, 6) ∧
    ¬ ((6 : Nat) ≤ 0) := by
  decide

/-- **C5 amended.** `line_of(offset)` returns as first component the
number of newline offsets `≤ offset` (the `bisect_right` line index).
Its second component is `1 +` the *greatest newline offset `≤ offset`*
whenever at least one newline offset is `≤ offset`; but when `offset`
precedes the first newline, it is the start of the *last* line
(`splits[-1] + 1`, Python negative indexing) if the source contains a
newline, and `0` only when the source has no newline at all. -/
theorem line_of_amended (source : String) (index : Int) :
    ((SourcePosToLine.ofSource (some source)).line_of index).1 =
        bisect_right (newlinePositions source) index ∧
    (1 ≤ bisect_right (newlinePositions source) index →
      ∃ s, (newlinePositions source)[bisect_right (newlinePositions source) index - 1]? =
            some s ∧
        ((SourcePosToLine.ofSource (some source)).line_of index).2 = s + 1 ∧
        (s : Int) ≤ index ∧
        ∀ t ∈ newlinePositions source, (t : Int) ≤ index → t ≤ s) ∧
    (bisect_right (newlinePositions source) index = 0 →
      (newlinePositions source = [] →
        ((SourcePosToLine.ofSource (some source)).line_of index).2 = 0) ∧
      (∀ s, (newlinePositions source).getLast? = some s →
        ((SourcePosToLine.ofSource (some source)).line_of index).2 = s + 1)) := by
  refine ⟨rfl, ?_, ?_⟩
  · intro h1
    obtain ⟨s, hsg, hsx, hmax⟩ :=
      bisect_right_greatest index (newlinePositions source) (newlinePositions_sorted source) h1
    refine ⟨s, hsg, ?_, hsx, hmax⟩
    rw [SourcePosToLine.line_of]
    simp only [SourcePosToLine.ofSource]
    rw [pyGet_nonneg _ _ (by omega)]
    have htn : ((bisect_right (newlinePositions source) index : Int) - 1).toNat =
        bisect_right (newlinePositions source) index - 1 := by omega
    rw [htn, hsg]
  · intro h0
    constructor
    · intro hnil
      rw [SourcePosToLine.line_of]
      simp only [SourcePosToLine.ofSource, h0, hnil]
      rfl
    · intro s hlast
      have hne : newlinePositions source ≠ [] := by
        intro hnil
        rw [hnil] at hlast
        exact Option.noConfusion hlast
      rw [SourcePosToLine.line_of]
      simp only [SourcePosToLine.ofSource, h0]
      rw [show ((0 : Nat) : Int) - 1 = -1 from by omega, pyGet_neg_last _ hne, hlast]

/-- Witness for C5 amended: on `"ab\ncd\nef"` at offset 4, the line
start is `3 = 2 + 1` for the greatest newline offset `2 ≤ 4`. -/
theorem line_of_amended_witness :
    ∃ s, (newlinePositions "ab\ncd\nef")[bisect_right (newlinePositions "ab\ncd\nef") 4 - 1]? =
          some s ∧
      ((SourcePosToLine.ofSource (some "ab\ncd\nef")).line_of 4).2 = s + 1 ∧
      (s : Int) ≤ 4 ∧
      ∀ t ∈ newlinePositions "ab\ncd\nef", (t : Int) ≤ 4 → t ≤ s :=
  (line_of_amended "ab\ncd\nef" 4).2.1 (by decide)

theorem searchContractGo_none (input : List Nat)
    (cands : List (String × String × List Nat)) :
    ∀ (ml : Nat) (mid : Option (String × String)),
      searchContractGo input cands ml mid = none ↔
        (mid = none ∧ ∀ cand ∈ cands, ¬ Beats input ml cand) := by
  induction cands with
  | nil => intro ml mid; simp [searchContractGo]
  | cons c rest ih =>
    intro ml mid
    match c with
    | (u, n, bytecode) =>
      by_cases hc : Beats input ml (u, n, bytecode)
      · rw [searchContractGo, if_pos ⟨hc.1, hc.2⟩, ih]
        constructor
        · intro h
          exact absurd h.1 (by simp)
        · intro h
          exact absurd hc (h.2 (u, n, bytecode) (by simp))
      · rw [searchContractGo, if_neg (by intro h; exact hc ⟨h.1, h.2⟩), ih]
        constructor
        · intro h
          refine ⟨h.1, ?_⟩
          intro cand hm
          rcases List.mem_cons.mp hm with rfl | hr
          · exact hc
          · exact h.2 cand hr
        · intro h
          exact ⟨h.1, fun cand hr => h.2 cand (List.mem_cons.mpr (Or.inr hr))⟩

theorem searchContractGo_some (input : List Nat)
    (cands : List (String × String × List Nat)) :
    ∀ (ml : Nat) (mid : Option (String × String)) (id : String × String),
      searchContractGo input cands ml mid = some id →
      (mid = some id ∧ ∀ cand ∈ cands, ¬ Beats input ml cand) ∨
      (∃ (i : Nat) (cand : String × String × List Nat),
        cands[i]? = some cand ∧ Beats input ml cand ∧ id = (cand.1, cand.2.1) ∧
        (∀ cand' ∈ cands, Beats input ml cand' → cand'.2.2.length ≤ cand.2.2.length) ∧
        (∀ j, j < i → ∀ cand', cands[j]? = some cand' → Beats input ml cand' →
          cand'.2.2.length < cand.2.2.length)) := by
  induction cands with
  | nil =>
    intro ml mid id h
    left
    exact ⟨h, by simp⟩
  | cons c rest ih =>
    intro ml mid id h
    match c with
    | (u, n, bytecode) =>
      by_cases hc : Beats input ml (u, n, bytecode)
      · rw [searchContractGo, if_pos ⟨hc.1, hc.2⟩] at h
        rcases ih bytecode.length (some (u, n)) id h with ⟨heq, hnone⟩ | hex
        · right
          refine ⟨0, (u, n, bytecode), by simp, hc, by simpa using heq.symm, ?_,
            by intro j hj cand' hgj hbj; omega⟩
          intro cand' hm hb
          rcases List.mem_cons.mp hm with rfl | hr
          · exact le_refl _
          · by_contra hlt
            exact hnone cand' hr ⟨not_le.mp hlt, hb.2⟩
        · right
          obtain ⟨i, cand, hget, hbeat, hid, hmax, hfirst⟩ := hex
          have hml : ml < bytecode.length := hc.1
          have hbl : bytecode.length < cand.2.2.length := hbeat.1
          refine ⟨i + 1, cand, by simpa using hget, ⟨by omega, hbeat.2⟩, hid, ?_, ?_⟩
          · intro cand' hm hb
            rcases List.mem_cons.mp hm with rfl | hr
            · exact le_of_lt hbl
            · by_cases hlong : bytecode.length < cand'.2.2.length
              · exact hmax cand' hr ⟨hlong, hb.2⟩
              · omega
          · intro j hj cand' hgj hbj
            match j with
            | 0 =>
              simp only [List.getElem?_cons_zero, Option.some.injEq] at hgj
              rw [← hgj]
              exact hbl
            | j + 1 =>
              simp only [List.getElem?_cons_succ] at hgj
              by_cases hlong : bytecode.length < cand'.2.2.length
              · exact hfirst j (by omega) cand' hgj ⟨hlong, hbj.2⟩
              · omega
      · rw [searchContractGo, if_neg (by intro hcc; exact hc ⟨hcc.1, hcc.2⟩)] at h
        rcases ih ml mid id h with ⟨heq, hnone⟩ | hex
        · left
          refine ⟨heq, ?_⟩
          intro cand hm
          rcases List.mem_cons.mp hm with rfl | hr
          · exact hc
          · exact hnone cand hr
        · right
          obtain ⟨i, cand, hget, hbeat, hid, hmax, hfirst⟩ := hex
          refine ⟨i + 1, cand, by simpa using hget, hbeat, hid, ?_, ?_⟩
          · intro cand' hm hb
            rcases List.mem_cons.mp hm with rfl | hr
            · exact absurd hb hc
            · exact hmax cand' hr hb
          · intro j hj cand' hgj hbj
            match j with
            | 0 =>
              simp only [List.getElem?_cons_zero, Option.some.injEq] at hgj
              rw [← hgj] at hbj
              exact absurd hbj hc
            | j + 1 =>
              simp only [List.getElem?_cons_succ] at hgj
              exact hfirst j (by omega) cand' hgj hbj

/-- **C6 counterexample.** With a single registered contract whose
creation bytecode is empty, and an empty deployment input, the empty
bytecode *is* a byte-for-byte prefix of the input (so the claim requires
it to be selected as the unique — hence longest — matching candidate),
but `_search_contract` selects nothing: the `len(bytecode) >
match_length` guard with `match_length = 0` excludes zero-length
candidates. -/
theorem search_contract_counterexample :
    ([] : List Nat).isPrefixOf ([] : List Nat) = true ∧
    search_contract [("u", "c", [])] [] = none ∧
    search_contract [("u", "c", [])] [] ≠ some ("u", "c") := by
  decide

/-- **C6 amended.** `_search_contract` selects a candidate whose creation
bytecode is a byte-for-byte prefix of the deployment input and whose
length is maximal among matching candidates *of non-zero length*: it
returns `none` exactly when no candidate with non-empty bytecode matches,
and otherwise returns the first registered candidate among those of
maximal (non-zero) matching length — a shorter matching candidate is
never chosen over a longer one. -/
theorem search_contract_amended (cands : List (String × String × List Nat))
    (input : List Nat) :
    (search_contract cands input = none ↔ ∀ cand ∈ cands, ¬ Beats input 0 cand) ∧
    (∀ id, search_contract cands input = some id →
      ∃ (i : Nat) (cand : String × String × List Nat),
        cands[i]? = some cand ∧ Beats input 0 cand ∧ id = (cand.1, cand.2.1) ∧
        (∀ cand' ∈ cands, Beats input 0 cand' → cand'.2.2.length ≤ cand.2.2.length) ∧
        (∀ j, j < i → ∀ cand', cands[j]? = some cand' → Beats input 0 cand' →
          cand'.2.2.length < cand.2.2.length)) := by
  constructor
  · rw [search_contract, searchContractGo_none]
    simp
  · intro id h
    rcases searchContractGo_some input cands 0 none id h with ⟨heq, _⟩ | hex
    · exact Option.noConfusion heq
    · exact hex

/-- Witness for C6 amended: among `[("a", "a", [1]), ("b", "b", [1, 2])]`
with input `[1, 2, 3]`, the longer matching candidate `("b", "b")` at
index 1 is selected, with the index-0 candidate strictly shorter. -/
theorem search_contract_amended_witness :
    search_contract [("a", "a", [1]), ("b", "b", [1, 2])] [1, 2, 3] = some ("b", "b") ∧
    ∃ (i : Nat) (cand : String × String × List Nat),
      [("a", "a", [1]), ("b", "b", [1, 2])][i]? = some cand ∧
      Beats [1, 2, 3] 0 cand ∧ ("b", "b") = (cand.1, cand.2.1) ∧
      (∀ cand' ∈ [("a", "a", [1]), ("b", "b", [1, 2])], Beats [1, 2, 3] 0 cand' →
        cand'.2.2.length ≤ cand.2.2.length) ∧
      (∀ j, j < i → ∀ cand', [("a", "a", [1]), ("b", "b", [1, 2])][j]? = some cand' →
        Beats [1, 2, 3] 0 cand' → cand'.2.2.length < cand.2.2.length) := by
  refine ⟨by decide, ?_⟩
  exact (search_contract_amended [("a", "a", [1]), ("b", "b", [1, 2])] [1, 2, 3]).2
    ("b", "b") (by decide)

/-- **C4 counterexample.** A `RETURN` step followed by another step does
*not* make the tracker emit a pop event: starting from the initial
tracker, adding a `RETURN` step and then an `ADD` step yields the `none`
event both times and leaves the external level stack unchanged — only
`stop` (and not `return`) is treated as terminal by `CallStack.add`. -/
theorem callstack_add_counterexample :
    CallStack.add CallStack.init (mkStep 10 "RETURN" "-") =
      .ok (⟨[[]], some (mkStep 10 "RETURN" "-")⟩, ⟨none, none⟩) ∧
    CallStack.add ⟨[[]], some (mkStep 10 "RETURN" "-")⟩ (mkStep 11 "ADD" "-") =
      .ok (⟨[[]], some (mkStep 11 "ADD" "-")⟩, ⟨none, none⟩) := by
  constructor
  · rfl
  · rfl

/-- **C4 amended.** The tracker emits a pop discarding the whole current
external level exactly for a previous opcode `STOP` (case-insensitive),
and then only when the later step's opcode is not `JUMPDEST` (whose
branch shadows the terminal check) and a level exists; a previous
`RETURN` opcode is not treated as terminal (the later step then always
carries the `none` event with the level stack unchanged), and a `STOP`
followed by a `JUMPDEST` step likewise emits no event. -/
theorem callstack_add_amended (cs : CallStack) (prev step : TraceStep)
    (hprev : cs.prev_step = some prev) :
    (pyLower prev.op = "stop" → pyLower step.op ≠ "jumpdest" → cs.stack ≠ [] →
      CallStack.add cs step =
        .ok (⟨cs.stack.dropLast, some step⟩, ⟨some "pop", none⟩)) ∧
    (pyLower prev.op = "return" →
      CallStack.add cs step = .ok (⟨cs.stack, some step⟩, ⟨none, none⟩)) ∧
    (pyLower prev.op = "stop" → pyLower step.op = "jumpdest" →
      CallStack.add cs step = .ok (⟨cs.stack, some step⟩, ⟨none, none⟩)) := by
  obtain ⟨stack, ps⟩ := cs
  simp only at hprev
  subst hprev
  refine ⟨?_, ?_, ?_⟩
  rotate_left
  rotate_left
  · intro hstop hjd
    simp only [CallStack.add]
    rw [if_pos hjd, if_neg (show ¬ pyLower prev.op = "jump" from by rw [hstop]; decide)]
  · intro hstop hjd hne
    simp only [CallStack.add]
    rw [if_neg hjd,
      if_neg (show ¬ (step.pc = 0 ∧ pyLower prev.op = "call") from by
        rintro ⟨-, h⟩; rw [hstop] at h; exact absurd h (by decide)),
      if_pos hstop,
      if_neg (show ¬ (stack.isEmpty = true) from by simpa using hne)]
  · intro hret
    simp only [CallStack.add]
    by_cases hjd : pyLower step.op = "jumpdest"
    · rw [if_pos hjd, if_neg (show ¬ pyLower prev.op = "jump" from by rw [hret]; decide)]
    · rw [if_neg hjd,
        if_neg (show ¬ (step.pc = 0 ∧ pyLower prev.op = "call") from by
          rintro ⟨-, h⟩; rw [hret] at h; exact absurd h (by decide)),
        if_neg (show ¬ pyLower prev.op = "stop" from by rw [hret]; decide)]

/-- Witness for C4 amended: a concrete `STOP`-then-`ADD` pair pops the
whole level, while `RETURN`-then-`ADD` and `STOP`-then-`JUMPDEST` pairs
emit no event. -/
theorem callstack_add_amended_witness :
    CallStack.add ⟨[[]], some (mkStep 1 "STOP" "-")⟩ (mkStep 2 "ADD" "-") =
      .ok (⟨[], some (mkStep 2 "ADD" "-")⟩, ⟨some "pop", none⟩) ∧
    CallStack.add ⟨[[]], some (mkStep 1 "RETURN" "-")⟩ (mkStep 2 "ADD" "-") =
      .ok (⟨[[]], some (mkStep 2 "ADD" "-")⟩, ⟨none, none⟩) ∧
    CallStack.add ⟨[[]], some (mkStep 1 "STOP" "-")⟩ (mkStep 2 "JUMPDEST" "-") =
      .ok (⟨[[]], some (mkStep 2 "JUMPDEST" "-")⟩, ⟨none, none⟩) := by
  refine ⟨?_, ?_, ?_⟩
  · have h := (callstack_add_amended ⟨[[]], some (mkStep 1 "STOP" "-")⟩
      (mkStep 1 "STOP" "-") (mkStep 2 "ADD" "-") rfl).1 (by decide) (by decide) (by decide)
    simpa using h
  · have h := (callstack_add_amended ⟨[[]], some (mkStep 1 "RETURN" "-")⟩
      (mkStep 1 "RETURN" "-") (mkStep 2 "ADD" "-") rfl).2.1 (by decide)
    simpa using h
  · have h := (callstack_add_amended ⟨[[]], some (mkStep 1 "STOP" "-")⟩
      (mkStep 1 "STOP" "-") (mkStep 2 "JUMPDEST" "-") rfl).2.2 (by decide) (by decide)
    simpa using h

/-- **C7 counterexample.** A pop event arriving while the tracker's
external level stack is already empty *does* raise: starting from the
initial tracker, a `STOP` step, a second `STOP` step (which pops the
only level, leaving the level stack empty) and a third step whose
predecessor is a `STOP` make `CallStack.add` raise `IndexError`
(`del self._stack[-1]` on an empty list) instead of completing. -/
theorem callstack_pop_empty_counterexample :
    CallStack.add CallStack.init (mkStep 1 "STOP" "-") =
      .ok (⟨[[]], some (mkStep 1 "STOP" "-")⟩, ⟨none, none⟩) ∧
    CallStack.add ⟨[[]], some (mkStep 1 "STOP" "-")⟩ (mkStep 2 "STOP" "-") =
      .ok (⟨[], some (mkStep 2 "STOP" "-")⟩, ⟨some "pop", none⟩) ∧
    CallStack.add ⟨[], some (mkStep 2 "STOP" "-")⟩ (mkStep 3 "STOP" "-") =
      .error .indexError :=
  ⟨rfl, rfl, rfl⟩

/-- **C3 counterexample.** With contract `("u","c")` (one `STOP`
instruction) deployed at `0xA` and a single log entry whose program
counter `5` has no entry in the address-to-instruction index,
`trace_iter` raises `IndexError` out of `FrameDecoder.get_mapping` and
yields *no* step for the log entry — it does not degrade to the
`(0, 0, 0, '-')` sentinel (which only `FrameDecoderDummy` produces). -/
theorem trace_iter_counterexample :
    FrameDecoder.ofContract cexContract = .ok cexDecoder ∧
    cexDecoder.address_to_instruction_number[(5 : Nat)]? = none ∧
    trace_iter "0xA" [⟨0, 5, "PUSH1", none, 0, [], [], []⟩]
        [("0xA", some ("u", "c"))] [(("u", "c"), cexContract)]
        (SourceMapper.ofCompiled [(("u", "c"), cexContract)]) =
      ([], some .indexError) := by
  refine ⟨rfl, by decide, by decide⟩

/-- **C3 amended.** Decode-failure behaviour of the trace decoder: the
dummy decoder always yields the sentinel `(0, 0, 0, '-')`, but a real
`FrameDecoder` *raises* `IndexError` on a program counter with no entry
in the address-to-instruction index (no sentinel fallback).  An unknown
contract address at a call entry degrades to the dummy decoder — and the
step is still yielded with the sentinel tuple — only when a previous
call entry already bound the identification locals (which then leak,
stale, into the new frame); at the first call entry it raises
`UnboundLocalError` inside the `except KeyError` handler instead. -/
theorem decode_failure_amended :
    (∀ a : Nat, Decoder.dummy.get_mapping a = .ok (0, 0, 0, "-")) ∧
    (∀ (fd : FrameDecoder) (a : Nat), fd.address_to_instruction_number.length ≤ a →
      fd.get_mapping a = .error .indexError) ∧
    (∀ (transaction_to : String) (logs : List LogEntry)
      (a2c : List (String × Option (String × String)))
      (compiled : List ((String × String) × Contract)) (srcmapper : SourceMapper)
      (st : TraceIterState) (log : LogEntry),
      log.depth = st.prev_depth + 1 →
      dictFind a2c transaction_to = none →
      st.locals_call_id = none →
      trace_iter_body transaction_to logs a2c compiled srcmapper st 0 log =
        .error .unboundLocal) ∧
    (∀ (transaction_to : String) (logs : List LogEntry)
      (a2c : List (String × Option (String × String)))
      (compiled : List ((String × String) × Contract)) (srcmapper : SourceMapper)
      (st : TraceIterState) (log : LogEntry) (u c : String)
      (cs : CallStack) (ev : CallStackEvent),
      log.depth = st.prev_depth + 1 →
      dictFind a2c transaction_to = none →
      st.locals_call_id = some (u, c) →
      st.callstack.add
        ⟨0, log.depth, c, log.pc, log.op, log.stack, log.memory, log.storage, log.gas,
          log.error, 0, 0, 0, "-", srcmapper.get_source u 0 0 0⟩ = .ok (cs, ev) →
      trace_iter_body transaction_to logs a2c compiled srcmapper st 0 log =
        .ok (⟨st.tracestack ++ [⟨u, c, Decoder.dummy⟩], log.depth, cs, some (u, c)⟩,
          ⟨0, log.depth, c, log.pc, log.op, log.stack, log.memory, log.storage, log.gas,
            log.error, 0, 0, 0, "-", srcmapper.get_source u 0 0 0⟩, ev)) := by
  refine ⟨fun a => rfl, ?_, ?_, ?_⟩
  · intro fd a hlen
    rw [FrameDecoder.get_mapping, List.getElem?_eq_none hlen]
  · intro transaction_to logs a2c compiled srcmapper st log hdep hfind hloc
    rw [trace_iter_body]
    simp only [hdep, eq_self_iff_true, if_true, bind, Except.bind, pure, Except.pure,
      throw, throwThe, MonadExceptOf.throw, hfind, hloc]
  · intro transaction_to logs a2c compiled srcmapper st log u c cs ev hdep hfind hloc hadd
    rw [trace_iter_body]
    have hlast : (st.tracestack ++ [(⟨u, c, Decoder.dummy⟩ : TraceStackItem)]).getLast? =
        some ⟨u, c, Decoder.dummy⟩ := List.getLast?_concat _
    rw [hdep] at hadd
    simp only [hdep, eq_self_iff_true, if_true, bind, Except.bind, pure, Except.pure,
      throw, throwThe, MonadExceptOf.throw, hfind, hloc, hlast, Decoder.get_mapping, hadd]

/-- Witness for C3 amended: the dummy sentinel, an out-of-range pc on the
concrete decoder for `cexContract`, the `UnboundLocalError` at a first
call entry with an empty identity table, and the stale-locals dummy path
yielding its step, all at concrete inputs. -/
theorem decode_failure_amended_witness :
    Decoder.dummy.get_mapping 7 = .ok (0, 0, 0, "-") ∧
    cexDecoder.get_mapping 5 = .error .indexError ∧
    trace_iter_body "0xA" [] [] [] (SourceMapper.ofCompiled []) TraceIterState.init 0
        ⟨0, 0, "STOP", none, 0, [], [], []⟩ = .error .unboundLocal ∧
    trace_iter_body "0xA" [] [] [] (SourceMapper.ofCompiled [])
        ⟨[], -1, CallStack.init, some ("u", "c")⟩ 0 ⟨0, 3, "ADD", none, 0, [], [], []⟩ =
      .ok (⟨[⟨"u", "c", Decoder.dummy⟩], 0, ⟨[[]], some
            ⟨0, 0, "c", 3, "ADD", [], [], [], 0, none, 0, 0, 0, "-",
              (SourceMapper.ofCompiled []).get_source "u" 0 0 0⟩⟩,
          some ("u", "c")⟩,
        ⟨0, 0, "c", 3, "ADD", [], [], [], 0, none, 0, 0, 0, "-",
          (SourceMapper.ofCompiled []).get_source "u" 0 0 0⟩,
        ⟨none, none⟩) := by
  refine ⟨decode_failure_amended.1 7, ?_, ?_, ?_⟩
  · apply decode_failure_amended.2.1
    decide
  · exact decode_failure_amended.2.2.1 "0xA" [] [] [] (SourceMapper.ofCompiled [])
      TraceIterState.init ⟨0, 0, "STOP", none, 0, [], [], []⟩ rfl rfl rfl
  · exact decode_failure_amended.2.2.2 "0xA" [] [] [] (SourceMapper.ofCompiled [])
      ⟨[], -1, CallStack.init, some ("u", "c")⟩ ⟨0, 3, "ADD", none, 0, [], [], []⟩
      "u" "c" _ _ rfl rfl rfl rfl

theorem move_window_frames (n : Nat) : ∀ st : EvmDebugCore,
    (EvmDebugCore.move_window n st).frames = st.frames := by
  induction n with
  | zero => intro st; rfl
  | succ n ih =>
    intro st
    rw [EvmDebugCore.move_window]
    match hit : st.iter with
    | [] => rw [ih]
    | (ts, ev) :: rest => rw [ih]

/-- **C7 amended.** A pop on an already-empty stack is *not* tolerated at
the pop sites: when the tracker's level stack is empty, a step whose
predecessor's opcode is `STOP` (and which is not itself a `JUMPDEST`)
makes `CallStack.add` raise `IndexError`; and when a valid step carrying
a pop event arrives while `EvmDebugCore`'s frame stack is empty,
`EvmDebugCore.step` raises `IndexError` from `_pop_frame`. -/
theorem pop_on_empty_amended :
    (∀ (cs : CallStack) (prev step : TraceStep),
      cs.stack = [] → cs.prev_step = some prev → pyLower prev.op = "stop" →
      pyLower step.op ≠ "jumpdest" →
      CallStack.add cs step = .error .indexError) ∧
    (∀ (st : EvmDebugCore) (s : Step),
      (EvmDebugCore.move_window 1 st).window_rel 0 = .ok s →
      s.valid = true → s.event.event = some "pop" → st.frames = [] →
      EvmDebugCore.step st = .error .indexError) := by
  constructor
  · intro cs prev step hempty hprev hstop hjd
    obtain ⟨stack, ps⟩ := cs
    simp only at hempty hprev
    subst hempty
    subst hprev
    simp only [CallStack.add]
    rw [if_neg hjd,
      if_neg (show ¬ (step.pc = 0 ∧ pyLower prev.op = "call") from by
        rintro ⟨-, h⟩; rw [hstop] at h; exact absurd h (by decide)),
      if_pos hstop]
    simp
  · intro st s hs hvalid hpop hframes
    rw [EvmDebugCore.step]
    have hfr : (EvmDebugCore.move_window 1 st).frames = [] := by
      rw [move_window_frames]; exact hframes
    simp only [bind, Except.bind, hs, hvalid, hpop, hfr]
    simp [throw, throwThe, MonadExceptOf.throw]

/-- Witness for C7 amended: a concrete empty-stack tracker raising on a
`STOP` predecessor, and a concrete debug core with an empty frame stack
raising on a pop-event step. -/
theorem pop_on_empty_amended_witness :
    CallStack.add ⟨[], some (mkStep 2 "STOP" "-")⟩ (mkStep 3 "STOP" "-") =
      .error .indexError ∧
    EvmDebugCore.step
        ⟨1, 0, [EvmDebugCore.INVALID_STEP, EvmDebugCore.INVALID_STEP, popStep], [], [], [],
          SourceMapper.ofCompiled []⟩ =
      .error .indexError := by
  constructor
  · exact pop_on_empty_amended.1 ⟨[], some (mkStep 2 "STOP" "-")⟩ (mkStep 2 "STOP" "-")
      (mkStep 3 "STOP" "-") rfl rfl (by decide) (by decide)
  · exact pop_on_empty_amended.2
      ⟨1, 0, [EvmDebugCore.INVALID_STEP, EvmDebugCore.INVALID_STEP, popStep], [], [], [],
        SourceMapper.ofCompiled []⟩ popStep rfl rfl rfl rfl

/-- **C9 counterexample.** On a freshly initialized debug core over an
empty trace (`windowsize = 1`), the offset `-2` — strictly less than
`-windowsize`, within `-(2·windowsize+1)` — makes `get_step` return the
invalid sentinel step itself: the claim that such offsets never return
the invalid sentinel is false (the mirrored look-ahead slot can hold the
sentinel once the trace is exhausted). -/
theorem get_step_counterexample :
    (EvmDebugCore.init 1 [] [] (SourceMapper.ofCompiled [])).bind
        (fun core => core.get_step (-2)) = .ok EvmDebugCore.INVALID_STEP := by
  rfl

theorem pyGet_neg {α : Type} (l : List α) (i : Int) (hneg : i < 0)
    (hin : 0 ≤ (l.length : Int) + i) :
    pyGet l i = l[((l.length : Int) + i).toNat]? := by
  simp only [pyGet]
  rw [if_pos hneg, if_pos hin]

/-- **C9 amended.** For offsets `i` with `-(2·windowsize+1) ≤ i <
-windowsize`, `windowsize + i` is negative, so `_get_window_rel` indexes
the window list from its far end: `get_step(i)` returns the same window
slot as `get_step(i + 2·windowsize + 1)` — a look-ahead slot (in
particular `get_step(-windowsize-1) = get_step(windowsize)`) — and never
takes the out-of-range sentinel fallback branch; the slot itself may
still hold the invalid step when the trace is exhausted there.  Only
offsets in `-windowsize..windowsize` are the claimed bounded
look-behind/look-ahead. -/
theorem get_step_amended (core : EvmDebugCore)
    (hlen : core.window.length = 2 * core.windowsize + 1)
    (i : Int) (hlo : -(2 * (core.windowsize : Int) + 1) ≤ i)
    (hhi : i < -(core.windowsize : Int)) :
    core.get_step i = core.get_step (i + (2 * (core.windowsize : Int) + 1)) ∧
    ∃ s, core.get_step i = .ok s := by
  have hW : ((core.windowsize : Int) + i) < (core.window.length : Int) := by
    rw [hlen]; push_cast; omega
  have hW2 : ((core.windowsize : Int) + (i + (2 * (core.windowsize : Int) + 1))) <
      (core.window.length : Int) := by
    rw [hlen]; push_cast; omega
  have hidx : ((core.window.length : Int) + ((core.windowsize : Int) + i)).toNat =
      ((core.windowsize : Int) + (i + (2 * (core.windowsize : Int) + 1))).toNat := by
    rw [hlen]; push_cast; omega
  have hbound : ((core.window.length : Int) + ((core.windowsize : Int) + i)).toNat <
      core.window.length := by
    rw [hlen]; push_cast; omega
  constructor
  · rw [EvmDebugCore.get_step, EvmDebugCore.get_step, EvmDebugCore.window_rel,
      EvmDebugCore.window_rel, if_pos hW, if_pos hW2,
      pyGet_neg _ _ (by omega) (by rw [hlen]; push_cast; omega),
      pyGet_nonneg _ _ (by omega), hidx]
  · rw [EvmDebugCore.get_step, EvmDebugCore.window_rel, if_pos hW,
      pyGet_neg _ _ (by omega) (by rw [hlen]; push_cast; omega)]
    rw [List.getElem?_eq_getElem hbound]
    exact ⟨_, rfl⟩

/-- Witness for C9 amended: on a concrete windowsize-1 core,
`get_step(-2)` equals `get_step(1)` (the look-ahead slot holding the
`SUB` step). -/
theorem get_step_amended_witness :
    w9core.get_step (-2) = w9core.get_step (-2 + (2 * (1 : Int) + 1)) ∧
    w9core.get_step (-2) = .ok ⟨some (mkStep 3 "SUB" "-"), ⟨none, none⟩, [], []⟩ := by
  constructor
  · exact (get_step_amended w9core rfl (-2) (by decide) (by decide)).1
  · rfl

theorem except_bind_ok {ε α β : Type} {e : Except ε α} {k : α → Except ε β} {r : β} :
    (e >>= k) = .ok r ↔ ∃ v, e = .ok v ∧ k v = .ok r := by
  cases e with
  | error err => simp [Bind.bind, Except.bind]
  | ok v => simp [Bind.bind, Except.bind]

theorem get_step_zero_ok (core : EvmDebugCore)
    (hlen : core.window.length = 2 * core.windowsize + 1) :
    ∃ s, core.get_step 0 = .ok s := by
  rw [EvmDebugCore.get_step, EvmDebugCore.window_rel,
    if_pos (by rw [hlen]; push_cast; omega),
    pyGet_nonneg _ _ (by omega),
    show ((core.windowsize : Int) + 0).toNat = core.windowsize from by omega,
    List.getElem?_eq_getElem (by omega)]
  exact ⟨_, rfl⟩

theorem check_break_classify (st : InteractiveDebuggerOI) (depth : Int)
    (r : Option ObjectInterfaceException)
    (h : st.check_break depth = .ok r) :
    (∀ e, r = some e → e.name = "revert" ∨ e.name = "breakpoint") ∧
    (∀ s ts, st.dbg.get_step 0 = .ok s → s.step = some ts →
      (r = some ⟨"revert", []⟩ ↔ ts.op = "REVERT")) := by
  simp only [InteractiveDebuggerOI.check_break] at h
  obtain ⟨s0, hs0, h⟩ := except_bind_ok.mp h
  obtain ⟨prev0, hprev0, h⟩ := except_bind_ok.mp h
  match hstep : s0.step with
  | none =>
    simp only [hstep] at h
    exact absurd h (by simp [throw, throwThe, MonadExceptOf.throw])
  | some ts0 =>
    simp only [hstep] at h
    have hagree : ∀ s ts, st.dbg.get_step 0 = .ok s → s.step = some ts → ts = ts0 := by
      intro s ts hs hts
      rw [hs0] at hs
      cases hs
      rw [hstep] at hts
      cases hts
      rfl
    by_cases hrev : ts0.op = "REVERT"
    · rw [if_pos hrev] at h
      have hr : r = some ⟨"revert", []⟩ := by
        simpa [pure, Except.pure] using h.symm
      refine ⟨?_, ?_⟩
      · intro e he
        rw [hr] at he
        cases he
        left
        rfl
      · intro s ts hs hts
        rw [hagree s ts hs hts]
        exact ⟨fun _ => hrev, fun _ => hr⟩
    · rw [if_neg hrev] at h
      obtain ⟨r1, hr1, h⟩ := except_bind_ok.mp h
      have hr1class : r1 = none ∨ r1 = some none ∨
          r1 = some (some ⟨"breakpoint", []⟩) := by
        split at hr1
        · split at hr1
          · obtain ⟨fn, hfn, hr1⟩ := except_bind_ok.mp hr1
            obtain ⟨la, hla, hr1⟩ := except_bind_ok.mp hr1
            split at hr1
            · right; left
              simpa [pure, Except.pure] using hr1.symm
            · split at hr1
              · split at hr1
                · right; right
                  simpa [pure, Except.pure] using hr1.symm
                · left
                  simpa [pure, Except.pure] using hr1.symm
              · exact absurd hr1 (by simp [throw, throwThe, MonadExceptOf.throw])
          · left
            simpa [pure, Except.pure] using hr1.symm
        · left
          simpa [pure, Except.pure] using hr1.symm
      have hrclass : r = none ∨ r = some ⟨"breakpoint", []⟩ := by
        rcases hr1class with h1 | h1 | h1 <;> simp only [h1] at h
        · split at h
          · split at h
            · split at h
              · right
                simpa [pure, Except.pure] using h.symm
              · left
                simpa [pure, Except.pure] using h.symm
            · left
              simpa [pure, Except.pure] using h.symm
          · left
            simpa [pure, Except.pure] using h.symm
        · left
          simpa [pure, Except.pure] using h.symm
        · right
          simpa [pure, Except.pure] using h.symm
      refine ⟨?_, ?_⟩
      · intro e he
        rcases hrclass with h1 | h1 <;> rw [h1] at he
        · exact Option.noConfusion he
        · cases he
          right
          rfl
      · intro s ts hs hts
        rw [hagree s ts hs hts]
        constructor
        · intro hre
          rcases hrclass with h1 | h1 <;> rw [h1] at hre
          · exact Option.noConfusion hre
          · exact absurd (Option.some.inj hre) (by decide)
        · intro hop
          exact absurd hop hrev

/-- **C8.** `cmd_stepi` advances the debug core by exactly one
underlying instruction and stops: for any fuel, one loop iteration of
`_continue` runs — the resulting state's core is the single-`step()`
result `dbg'` — and the reported stop is `terminate` when that single
instruction exhausted the trace, otherwise whatever `_check_break`
raised (`revert` exactly when the new current opcode is `REVERT`, else
only `breakpoint`), and `step` when `_check_break` raised nothing. -/
theorem cmd_stepi_spec (st : InteractiveDebuggerOI) (fuel : Nat)
    (hlen : st.dbg.window.length = 2 * st.dbg.windowsize + 1)
    (dbg' : EvmDebugCore) (hstep : EvmDebugCore.step st.dbg = .ok dbg')
    (s : Step) (hs : dbg'.get_step 0 = .ok s) :
    (s.valid = false →
      InteractiveDebuggerOI.cmd_stepi (fuel + 1) st =
        .ok (some ({ st with dbg := dbg' }, ⟨"terminate", []⟩))) ∧
    (s.valid = true →
      ∀ r, InteractiveDebuggerOI.check_break { st with dbg := dbg' }
          (depthAfterEvent 0 s) = .ok r →
        InteractiveDebuggerOI.cmd_stepi (fuel + 1) st =
          .ok (some ({ st with dbg := dbg' }, r.getD ⟨"step", []⟩)) ∧
        (∀ e, r = some e → e.name = "revert" ∨ e.name = "breakpoint") ∧
        (∀ ts, s.step = some ts → (r = some ⟨"revert", []⟩ ↔ ts.op = "REVERT"))) := by
  obtain ⟨prev, hprev⟩ := get_step_zero_ok st.dbg hlen
  constructor
  · intro hv
    rw [InteractiveDebuggerOI.cmd_stepi, InteractiveDebuggerOI.oi_continue]
    simp only [bind, Except.bind, hprev, InteractiveDebuggerOI.continue_go, hstep, hs, hv]
    rfl
  · intro hv r hcb
    refine ⟨?_, (check_break_classify _ _ r hcb).1, ?_⟩
    · rw [InteractiveDebuggerOI.cmd_stepi, InteractiveDebuggerOI.oi_continue]
      simp only [bind, Except.bind, hprev, InteractiveDebuggerOI.continue_go, hstep, hs, hv]
      simp only [Bool.not_true, Bool.false_eq_true, if_false, hcb]
      cases r with
      | none => simp [pure, Except.pure]
      | some e => simp [pure, Except.pure]
    · intro ts hts
      exact (check_break_classify _ _ r hcb).2 s ts hs hts

/-- Witness for C8: on the concrete state, `stepi` advances the core by
exactly one instruction and reports `step`. -/
theorem cmd_stepi_spec_witness :
    InteractiveDebuggerOI.cmd_stepi 1 w8st =
      .ok (some ({ w8st with dbg := w8dbg' }, ⟨"step", []⟩)) := by
  have h := ((cmd_stepi_spec w8st 0 rfl w8dbg' rfl w8S1 rfl).2 rfl) none rfl
  exact h.1

/-- **C10.** `cmd_frame` is not atomic on error: with an integer
argument `N` that is out of range for the frame stack, the selected
frame is set to `N` *before* the range check, the response reports
`frame_found = false` with no code object, and the out-of-range
selection persists into the new state, where `cmd_print` (for any
variable name) and `cmd_info_args` also report the frame as not found —
the previous selection is not restored. -/
theorem cmd_frame_not_atomic (st : InteractiveDebuggerOI) (a0 : String) (N : Int)
    (hparse : pyIntOpt a0 = some N)
    (hout : pyGet st.dbg.get_frames N = none) :
    InteractiveDebuggerOI.cmd_frame st [a0] =
      .ok ({ st with current_frame := N }, .resp ⟨N, false, none⟩) ∧
    (∀ varname, InteractiveDebuggerOI.cmd_print { st with current_frame := N } [varname] =
      .ok ⟨N, varname, false, false, none⟩) ∧
    InteractiveDebuggerOI.cmd_info_args { st with current_frame := N } =
      .ok ⟨N, false, false, none⟩ := by
  have hval : (InteractiveDebuggerOI.get_values_oi { st with current_frame := N } N 0) =
      .error .indexError := by
    rw [InteractiveDebuggerOI.get_values_oi]
    simp only [hout]
    rfl
  refine ⟨?_, ?_, ?_⟩
  · rw [InteractiveDebuggerOI.cmd_frame]
    simp only [List.getElem?_cons_zero, hparse, hout]
    rfl
  · intro varname
    rw [InteractiveDebuggerOI.cmd_print]
    simp only [List.getElem?_cons_zero, hval]
    rfl
  · rw [InteractiveDebuggerOI.cmd_info_args]
    simp only [hout]
    rfl

/-- Witness for C10: on the concrete state with one frame, `frame 5`
reports the frame as not found yet leaves `current_frame = 5`, and
`print`/`info args` then also fail to find the frame. -/
theorem cmd_frame_not_atomic_witness :
    InteractiveDebuggerOI.cmd_frame w8st ["5"] =
      .ok ({ w8st with current_frame := 5 }, .resp ⟨5, false, none⟩) ∧
    InteractiveDebuggerOI.cmd_print { w8st with current_frame := 5 } ["x"] =
      .ok ⟨5, "x", false, false, none⟩ ∧
    InteractiveDebuggerOI.cmd_info_args { w8st with current_frame := 5 } =
      .ok ⟨5, false, false, none⟩ := by
  have h := cmd_frame_not_atomic w8st "5" 5 rfl rfl
  exact ⟨h.1, h.2.1 "x", h.2.2⟩

/-- Witness for C1: the identity mapping on pushless bytecode
`[0x01, 0x02, 0x03]`, and for bytecode `PUSH1 0xaa; ADD` the payload byte
shares instruction number 0 while the following opcode gets number 1. -/
theorem map_address_to_instruction_number_spec_witness :
    map_address_to_instruction_number [0x01, 0x02, 0x03] = [0, 1, 2] ∧
    (map_address_to_instruction_number [0x60, 0xaa, 0x01])[1]? = some 0 ∧
    (map_address_to_instruction_number [0x60, 0xaa, 0x01])[2]? = some 1 := by
  refine ⟨?_, ?_, ?_⟩
  · have h := (map_address_to_instruction_number_spec [0x01, 0x02, 0x03]).2.1 (by decide)
    rw [h]
    rfl
  · exact ((map_address_to_instruction_number_spec [0x60, 0xaa, 0x01]).2.2
      0 0 0x60 Boundary.base rfl (by decide) (by decide)).1 1 (by decide)
  · exact ((map_address_to_instruction_number_spec [0x60, 0xaa, 0x01]).2.2
      0 0 0x60 Boundary.base rfl (by decide) (by decide)).2 (by decide)

end Solitude
